import Mathlib

/-!
Verification development for the applicant-screening pipeline
(`core_logic.py` of SidekickMove/applicant-screener).

The Python source is shallowly embedded: pure string manipulation is
translated to executable Lean functions over `String`/`List Char`,
tabular data (`pandas.DataFrame`) is modelled column-oriented as a list
of named string columns together with a row count, and the external
collaborators (file system, PDF/DOCX text extraction, `langdetect`,
the spaCy similarity model, the Fortune-500 reference file) are modelled
as an oracle environment `Env` of plain functions.  Every definition is
computable so that concrete runs can be evaluated inside proofs.
-/

namespace Screener

/-! ## Python string primitives

All Python string operations used by `core_logic.py` are re-implemented
with structural recursion on `List Char` so that they evaluate by kernel
reduction.  ASCII approximations of Python's Unicode-aware predicates
are used throughout (the source data is ASCII CSV text).
-/

/-- Whitespace characters recognised by Python's `str.strip` / `str.split()`
(ASCII subset). -/
def isPyWs (c : Char) : Bool :=
  c == ' ' || c == '\t' || c == '\n' || c == '\r' || c == '\x0b' || c == '\x0c'

/-- Python `str.strip()` on a character list. -/
def pyStripList (cs : List Char) : List Char :=
  ((cs.dropWhile isPyWs).reverse.dropWhile isPyWs).reverse

/-- Python `str.strip()`. -/
def pyStrip (s : String) : String :=
  ⟨pyStripList s.data⟩

/-- Python `str.lower()` (ASCII). -/
def myLower (s : String) : String :=
  ⟨s.data.map Char.toLower⟩

/-- Whether `pre` is a prefix of `cs` (`str.startswith`). -/
def isPrefixList : List Char → List Char → Bool
  | [], _ => true
  | _ :: _, [] => false
  | p :: ps, c :: cs => p == c && isPrefixList ps cs

/-- Python `str.startswith`. -/
def pyStartsWith (s pre : String) : Bool :=
  isPrefixList pre.data s.data

/-- Python substring containment `needle in hay` on character lists. -/
def containsList (needle : List Char) : List Char → Bool
  | [] => isPrefixList needle []
  | c :: cs => isPrefixList needle (c :: cs) || containsList needle cs

/-- Python substring containment `needle in hay`. -/
def containsStr (needle hay : String) : Bool :=
  containsList needle.data hay.data

/-- Helper of `pyWords`: whitespace-delimited tokens, accumulating the
current (reversed) token. -/
def pyWordsAux : List Char → List Char → List String
  | [], acc => if acc.isEmpty then [] else [⟨acc.reverse⟩]
  | c :: cs, acc =>
    if isPyWs c then
      if acc.isEmpty then pyWordsAux cs [] else ⟨acc.reverse⟩ :: pyWordsAux cs []
    else pyWordsAux cs (c :: acc)

/-- Python `str.split()` (no argument): whitespace-delimited tokens,
empty tokens dropped. -/
def pyWords (s : String) : List String :=
  pyWordsAux s.data []

/-- Helper of `splitOnStr`: fuel-driven split of `cs` on the separator
`sep`, with the current (reversed) piece in `acc`. -/
def splitOnAuxL (sep : List Char) : Nat → List Char → List Char → List (List Char)
  | 0, cs, acc => [acc.reverse ++ cs]
  | fuel + 1, cs, acc =>
    match cs with
    | [] => [acc.reverse]
    | c :: cs' =>
      if isPrefixList sep cs then
        acc.reverse :: splitOnAuxL sep fuel (cs.drop sep.length) []
      else
        splitOnAuxL sep fuel cs' (c :: acc)

/-- Python `str.split(sep)` for a non-empty separator `sep`. -/
def splitOnStr (s sep : String) : List String :=
  (splitOnAuxL sep.data (s.data.length + 1) s.data []).map (fun cs => ⟨cs⟩)

/-- Python `str.split(sep)` for a single-character separator. -/
def splitChar (c : Char) (s : String) : List String :=
  splitOnStr s ⟨[c]⟩

/-- Python `"sep".join(parts)`. -/
def pyJoin (sep : String) : List String → String
  | [] => ""
  | [x] => x
  | x :: xs => x ++ sep ++ pyJoin sep xs

/-- Python `str.split(":", maxsplit=1)`: `none` when there is no colon,
otherwise the parts before and after the first colon. -/
def splitColon1 (s : String) : Option (String × String) :=
  match splitOnStr s ":" with
  | [] => none
  | [_] => none
  | x :: rest => some (x, pyJoin ":" rest)

/-- Helper of `splitLinesPy`: accumulate the current (reversed) line. -/
def splitLinesAux : List Char → List Char → List (List Char)
  | [], acc => if acc.isEmpty then [] else [acc.reverse]
  | c :: cs, acc =>
    if c == '\n' then acc.reverse :: splitLinesAux cs []
    else splitLinesAux cs (c :: acc)

/-- Python `str.splitlines()` (newline-terminated lines, no trailing empty
line; only `\n` is treated as a line break in this model). -/
def splitLinesPy (s : String) : List String :=
  (splitLinesAux s.data []).map (fun cs => ⟨cs⟩)

/-- Python's falsy-string default: `s or d`. -/
def pyOrStr (s d : String) : String :=
  if s = "" then d else s

/-- Word character of the regular-expression class `\w`
(alphanumeric or underscore; ASCII model). -/
def isWordChar (c : Char) : Bool :=
  c.isAlphanum || c == '_'

/-- Helper of `tokenize_to_words`: accumulate the current (reversed) run
of word characters. -/
def wordTokensAux : List Char → List Char → List String
  | [], acc => if acc.isEmpty then [] else [⟨acc.reverse⟩]
  | c :: cs, acc =>
    if isWordChar c then wordTokensAux cs (c :: acc)
    else if acc.isEmpty then wordTokensAux cs []
    else ⟨acc.reverse⟩ :: wordTokensAux cs []

/-- Embedding of `tokenize_to_words`: `re.findall(r"\w+", text)`. -/
def tokenize_to_words (text : String) : List String :=
  wordTokensAux text.data []

/-- First run of decimal digits in a string, as a number
(the `re.search(r"(\d+)", cname)` helper of `normalize_dataframe`). -/
def firstNumberAux : List Char → Option Nat
  | [] => none
  | c :: cs =>
    if c.isDigit then
      some (((c :: cs).takeWhile Char.isDigit).foldl
        (fun n d => n * 10 + (d.toNat - '0'.toNat)) 0)
    else firstNumberAux cs

/-- Embedding of `extract_number`: first embedded integer of a column
name, defaulting to 999. -/
def extract_number (cname : String) : Nat :=
  (firstNumberAux cname.data).getD 999

/-- Basename of a path (the part after the last `/`). -/
def baseNameOf (p : String) : List Char :=
  (p.data.reverse.takeWhile (fun c => c ≠ '/')).reverse

/-- Embedding of `os.path.splitext(path)[1]`: the extension including the
dot, with leading dots of the basename not counting as separators. -/
def extOf (p : String) : String :=
  let b := baseNameOf p
  let core := b.dropWhile (fun c => c == '.')
  let afterRev := core.reverse.takeWhile (fun c => c ≠ '.')
  if afterRev.length == core.length then "" else ⟨'.' :: afterRev.reverse⟩

/-- Python `str.endswith`. -/
def pyEndsWith (s suf : String) : Bool :=
  isPrefixList suf.data.reverse s.data.reverse

/-- Embedding of `os.path.join(folder, name)` (POSIX, two arguments). -/
def pathJoin (a b : String) : String :=
  if pyStartsWith b "/" then b
  else if a = "" then b
  else if pyEndsWith a "/" then a ++ b
  else a ++ "/" ++ b

/-! ## Regular expressions

`get_found_symbols` uses `re.search` with two concrete patterns.  We
embed them through a small Brzozowski-derivative matcher, which is
structurally recursive on the subject string and therefore evaluates by
kernel reduction. -/

/-- Regular expressions over characters. -/
inductive Rx where
  | fail : Rx
  | eps : Rx
  | tok (p : Char → Bool) : Rx
  | cat (r s : Rx) : Rx
  | alt (r s : Rx) : Rx
  | star (r : Rx) : Rx

/-- Whether a regular expression accepts the empty string. -/
def Rx.nullable : Rx → Bool
  | .fail => false
  | .eps => true
  | .tok _ => false
  | .cat r s => r.nullable && s.nullable
  | .alt r s => r.nullable || s.nullable
  | .star _ => true

/-- Brzozowski derivative of a regular expression by a character. -/
def Rx.deriv (c : Char) : Rx → Rx
  | .fail => .fail
  | .eps => .fail
  | .tok p => if p c then .eps else .fail
  | .cat r s =>
    if r.nullable then .alt (.cat (r.deriv c) s) (s.deriv c)
    else .cat (r.deriv c) s
  | .alt r s => .alt (r.deriv c) (s.deriv c)
  | .star r => .cat (r.deriv c) (.star r)

/-- Whether some prefix of `cs` is accepted by `r`. -/
def rxMatchesPre (r : Rx) : List Char → Bool
  | [] => r.nullable
  | c :: cs => r.nullable || rxMatchesPre (r.deriv c) cs

/-- Whether some prefix of some suffix of `cs` (that is, some substring)
is accepted by `r`. -/
def rxSearchList (r : Rx) : List Char → Bool
  | [] => rxMatchesPre r []
  | c :: cs => rxMatchesPre r (c :: cs) || rxSearchList r cs

/-- Embedding of `re.search(pattern, text)` truthiness: whether the
pattern matches some substring of `text`. -/
def reSearch (r : Rx) (text : String) : Bool :=
  rxSearchList r text.data

/-- Single literal character. -/
def rxChar (c : Char) : Rx := .tok (fun d => d == c)

/-- The class `\d`. -/
def rxDigit : Rx := .tok Char.isDigit

/-- Optional part `(...)?`. -/
def rxOpt (r : Rx) : Rx := .alt r .eps

/-- The counted class `\d{1,3}`. -/
def rxDigit13 : Rx := .cat rxDigit (rxOpt (.cat rxDigit (rxOpt rxDigit)))

/-- The counted class `\d{3}`. -/
def rxDigit3 : Rx := .cat rxDigit (.cat rxDigit rxDigit)

/-- The class `\d+`. -/
def rxDigitPlus : Rx := .cat rxDigit (.star rxDigit)

/-- Embedding of `money_pattern`, the regular expression
`\$\d{1,3}(,\d{3})*(\.\d+)?` of `get_found_symbols`. -/
def moneyRx : Rx :=
  .cat (rxChar '$')
    (.cat rxDigit13
      (.cat (.star (.cat (rxChar ',') rxDigit3))
        (rxOpt (.cat (rxChar '.') rxDigitPlus))))

/-- Embedding of `percent_pattern`, the regular expression
`\d+(\.\d+)?%` of `get_found_symbols`. -/
def percentRx : Rx :=
  .cat rxDigitPlus (.cat (rxOpt (.cat (rxChar '.') rxDigitPlus)) (rxChar '%'))

/-! ## Answer-quality heuristics and employer detection

Direct translations of `is_ignored_question`, `filter_ignored_questions`,
`has_two_or_more_short_answers`, `parse_experiences_lines`,
`tokenize_to_words`, `phrase_in_tokens` and `count_unallowed_matches`.
-/

/-- Embedding of `is_ignored_question`. -/
def is_ignored_question (question_text : String) : Bool :=
  let q := myLower question_text
  if containsStr "check all that apply" q then true
  else if ["do you ", "are you ", "have you ", "did you "].any
      (fun phrase => pyStartsWith q phrase) then true
  else if containsStr "how many" q then true
  else false

/-- Loop of `filter_ignored_questions` over the separator-delimited
blocks, carrying the pending question text. -/
def filterIgnoredAux : List String → Option String → List String
  | [], _ => []
  | block :: rest, pending =>
    let b := pyStrip block
    if b = "" then filterIgnoredAux rest pending
    else
      match splitColon1 b with
      | none => filterIgnoredAux rest pending
      | some parts =>
        let label_text := pyStrip parts.1
        let content_text := pyStrip parts.2
        if pyStartsWith (myLower label_text) "question " then
          filterIgnoredAux rest (some content_text)
        else if pyStartsWith (myLower label_text) "answer " then
          -- `if pending_question_text and not is_ignored_question(...)`:
          -- a `None` or empty pending question is falsy.
          let keep :=
            match pending with
            | some q => q ≠ "" && !is_ignored_question q
            | none => false
          if keep then
            ("Question: " ++ pending.getD "") :: ("Answer: " ++ content_text) ::
              filterIgnoredAux rest none
          else filterIgnoredAux rest none
        else
          if !is_ignored_question label_text then
            ("Question: " ++ label_text) :: ("Answer: " ++ content_text) ::
              filterIgnoredAux rest pending
          else filterIgnoredAux rest pending

/-- Embedding of `filter_ignored_questions`. -/
def filter_ignored_questions (answers_str : String) : String :=
  pyJoin "\n" (filterIgnoredAux (splitOnStr answers_str "----------") none)

/-- Loop of `has_two_or_more_short_answers` over the separator-delimited
blocks, carrying the short-answer count and the pending question text.
Returns `true` as soon as the count reaches two. -/
def hasTwoAux (min_words : Nat) : List String → Nat → Option String → Bool
  | [], short_count, _ => decide (2 ≤ short_count)
  | block :: rest, short_count, pending =>
    let b := pyStrip block
    if b = "" then hasTwoAux min_words rest short_count pending
    else
      match splitColon1 b with
      | none => hasTwoAux min_words rest short_count pending
      | some parts =>
        let label_text := pyStrip parts.1
        let content_text := pyStrip parts.2
        if pyStartsWith (myLower label_text) "question " then
          hasTwoAux min_words rest short_count (some content_text)
        else if pyStartsWith (myLower label_text) "answer " then
          let actual_question := pending.getD ""
          if is_ignored_question actual_question then
            -- `continue`: the pending question is kept.
            hasTwoAux min_words rest short_count pending
          else if (pyWords content_text).length < min_words then
            if 2 ≤ short_count + 1 then true
            else hasTwoAux min_words rest (short_count + 1) none
          else hasTwoAux min_words rest short_count none
        else
          if is_ignored_question label_text then
            hasTwoAux min_words rest short_count pending
          else if (pyWords content_text).length < min_words then
            if 2 ≤ short_count + 1 then true
            else hasTwoAux min_words rest (short_count + 1) pending
          else hasTwoAux min_words rest short_count pending

/-- Embedding of `has_two_or_more_short_answers`. -/
def has_two_or_more_short_answers (answers_str : String) (min_words : Nat) : Bool :=
  hasTwoAux min_words (splitOnStr answers_str "----------") 0 none

/-- Embedding of `parse_experiences_lines`: up to two company names from
the experience field. -/
def parse_experiences_lines (experience_text : String) : List String :=
  let t := pyStrip experience_text
  if containsStr ";" t then
    (((splitChar ';' t).map pyStrip).filter (fun p => p ≠ "")).take 2
  else
    ((splitLinesPy t).filterMap (fun line =>
      let l := pyStrip line
      match splitColon1 l with
      | none => none
      | some parts =>
        let lhs := pyStrip parts.1
        if lhs ≠ "" && 2 < lhs.length then some lhs else none)).take 2

/-- Embedding of `phrase_in_tokens`: whether `phrase_tokens` occurs as a
contiguous run inside `pdf_tokens` (`False` for an empty phrase). -/
def phrase_in_tokens (phrase_tokens pdf_tokens : List String) : Bool :=
  let n := phrase_tokens.length
  if n = 0 then false
  else
    (List.range (pdf_tokens.length - n + 1)).any
      (fun i => ((pdf_tokens.drop i).take n) == phrase_tokens)

/-- Embedding of `count_unallowed_matches`: the number of distinct
disallowed phrases whose lowercased token sequence occurs in the
lowercased resume token sequence, together with those phrases.
(The source deduplicates with `list(set(matched))`, of which only the
length is consumed; the model deduplicates keeping first occurrences.) -/
def count_unallowed_matches (pdf_text : String) (unallowed_phrases : List String) :
    Nat × List String :=
  let tokens_pdf := tokenize_to_words (myLower pdf_text)
  let matched := unallowed_phrases.filter
    (fun phrase => phrase_in_tokens (tokenize_to_words (myLower phrase)) tokens_pdf)
  let distinct := matched.dedup
  (distinct.length, distinct)

/-- Embedding of `get_found_symbols`: for each enabled symbol check, the
sources (`"pdf"`, `"answers"`) in which the pattern matched; symbols with
no match are absent. -/
def get_found_symbols (pdf_text answers_text : String)
    (check_dollar check_percent : Bool) : List (String × List String) :=
  let dollarPart :=
    if check_dollar then
      let places :=
        (if reSearch moneyRx pdf_text then ["pdf"] else []) ++
        (if reSearch moneyRx answers_text then ["answers"] else [])
      if places ≠ [] then [("$", places)] else []
    else []
  let percentPart :=
    if check_percent then
      let places :=
        (if reSearch percentRx pdf_text then ["pdf"] else []) ++
        (if reSearch percentRx answers_text then ["answers"] else [])
      if places ≠ [] then [("%", places)] else []
    else []
  dollarPart ++ percentPart

/-! ## DataFrame model and `normalize_dataframe`

A `pandas.DataFrame` is modelled column-oriented: an ordered list of
named string columns plus an explicit row count (the index length).
Cells are read with a default of `""`; `.at`-style writes update the
first column carrying the given label (pandas requires unique labels for
these accesses). -/

/-- Column-oriented data frame: named columns and a row count. -/
structure DataFrame where
  cols : List (String × List String)
  nrows : Nat
deriving Repr, DecidableEq

/-- Names of a column list, in order. -/
def namesOf (cols : List (String × List String)) : List String :=
  cols.map (fun c => c.1)

/-- Column names of a data frame (`df.columns`). -/
def colNames (df : DataFrame) : List String :=
  namesOf df.cols

/-- Value of the first column named `name` at row `i` (default `""`). -/
def cellAt (cols : List (String × List String)) (name : String) (i : Nat) : String :=
  match cols.lookup name with
  | some vs => vs.getD i ""
  | none => ""

/-- Write `v` into row `i` of the first column named `name`. -/
def setCellAt (cols : List (String × List String)) (name : String) (i : Nat)
    (v : String) : List (String × List String) :=
  match cols with
  | [] => []
  | c :: rest =>
    if c.1 = name then (c.1, c.2.set i v) :: rest
    else c :: setCellAt rest name i v

/-- Rename every column name by `f` (the sequential `df.rename` loops of
`normalize_dataframe` rename by name, so they act pointwise on the name
list). -/
def renameCols (f : String → String) (df : DataFrame) : DataFrame :=
  ⟨df.cols.map (fun c => (f c.1, c.2)), df.nrows⟩

/-- Add an all-empty column (`df[name] = ""`) unless a column with that
exact name exists. -/
def ensureCol (df : DataFrame) (name : String) : DataFrame :=
  if name ∈ colNames df then df
  else ⟨df.cols ++ [(name, List.replicate df.nrows "")], df.nrows⟩

/-- Step 1 of `normalize_dataframe`: strip every column name. -/
def stripColNames (df : DataFrame) : DataFrame :=
  ⟨df.cols.map (fun c => (pyStrip c.1, c.2)), df.nrows⟩

/-- Step 2's rename table (`rename_map`), applied case-insensitively to
one column name.  The five lowercased keys are distinct, so the Python
dict built over all columns acts pointwise. -/
def applyRenameMap (n : String) : String :=
  if myLower n = "name" then "name"
  else if myLower n = "email" then "email"
  else if myLower n = "creation time" then "created_at"
  else if myLower n = "job title" then "job"
  else if myLower n = "experiences" then "experience"
  else n

/-- Step 3: a column whose lowercased name contains `"resume"` and is not
already (case-insensitively) `"download"` is renamed to `"download"`. -/
def applyResumeRename (n : String) : String :=
  if containsStr "resume" (myLower n) && myLower n ≠ "download" then "download" else n

/-- Step 4: a column case-insensitively equal to `"answers"` but not
exactly `"answers"` is renamed to `"answers"`. -/
def applyAnswersRename (n : String) : String :=
  if myLower n = "answers" && n ≠ "answers" then "answers" else n

/-- Step 5's question-column test: lowercased name starts with
`"question"` and is not exactly `"answers"`. -/
def isQuestionName (n : String) : Bool :=
  pyStartsWith (myLower n) "question" && myLower n ≠ "answers"

/-- Step 5's answer-column test: lowercased name starts with `"answer"`
and is not exactly `"answers"`. -/
def isAnswerName (n : String) : Bool :=
  pyStartsWith (myLower n) "answer" && myLower n ≠ "answers"

/-- Stable insertion of `x` into `l`, keeping earlier elements with an
equal-or-smaller key ahead of it. -/
def insSorted (key : String → Nat) (x : String) : List String → List String
  | [] => [x]
  | y :: ys => if key y ≤ key x then y :: insSorted key x ys else x :: y :: ys

/-- Stable ascending sort by key (the semantics of Python's
`list.sort(key=...)`). -/
def sortByKey (key : String → Nat) (l : List String) : List String :=
  l.foldl (fun acc x => insSorted key x acc) []

/-- The per-row merged Q&A text of step 5 (`combined_qa`): labelled lines
for each positionally paired question/answer column with non-empty
content, joined by newlines and stripped. -/
def combinedQA (question_cols answer_cols : List String)
    (cols : List (String × List String)) (i : Nat) : String :=
  let lines := (List.range (max question_cols.length answer_cols.length)).foldl
    (fun lines j =>
      let q_col := question_cols.get? j
      let a_col := answer_cols.get? j
      let q_text := match q_col with
        | some qc => pyStrip (cellAt cols qc i)
        | none => ""
      let a_text := match a_col with
        | some ac => pyStrip (cellAt cols ac i)
        | none => ""
      if q_text ≠ "" || a_text ≠ "" then
        lines ++
          ["---------- " ++ pyOrStr (q_col.getD "") "Question" ++ ": " ++ q_text,
           "---------- " ++ pyOrStr (a_col.getD "") "Answer" ++ ": " ++ a_text]
      else lines)
    []
  pyStrip (pyJoin "\n" lines)

/-- Step 5's row loop: append each row's merged Q&A text to its
`answers` cell (only when the merged text is non-empty). -/
def mergeQA (df : DataFrame) (question_cols answer_cols : List String) : DataFrame :=
  ⟨(List.range df.nrows).foldl
    (fun cols i =>
      let combined_qa := combinedQA question_cols answer_cols cols i
      if combined_qa = "" then cols
      else
        let existing_answers := cellAt cols "answers" i
        let new_val :=
          if existing_answers ≠ "" then existing_answers ++ "\n" ++ combined_qa
          else combined_qa
        setCellAt cols "answers" i new_val)
    df.cols, df.nrows⟩

/-- Step 6: drop the dynamic question/answer columns by name. -/
def dropColsByName (df : DataFrame) (names : List String) : DataFrame :=
  ⟨df.cols.filter (fun c => !names.contains c.1), df.nrows⟩

/-- Embedding of `normalize_dataframe`. -/
def normalize_dataframe (df : DataFrame) : DataFrame :=
  let df1 := stripColNames df
  let df2 := ensureCol df1 "id"
  let df3 := renameCols applyRenameMap df2
  let df4 := renameCols applyResumeRename df3
  let df5 := renameCols applyAnswersRename df4
  let question_cols := sortByKey extract_number ((colNames df5).filter isQuestionName)
  let answer_cols := sortByKey extract_number ((colNames df5).filter isAnswerName)
  let df6 := ensureCol df5 "answers"
  let df7 := mergeQA df6 question_cols answer_cols
  dropColsByName df7 (question_cols ++ answer_cols)

/-! ## External collaborators

File existence, document text extraction, `langdetect.detect`, the spaCy
model and the Fortune-500 reference list are external to the pipeline
logic; they are modelled as an oracle environment.  `extractPdf` /
`extractDocx` give the result of `extract_pdf_text` / `extract_docx_text`
(those functions already convert failures to `""`); `detect` returns
`none` when `langdetect` raises; `tokens text` is the token sequence of
`nlp(text)` and `simGE tok kw t` the outcome of the float comparison
`token.similarity(nlp(kw)) >= t` for a token with text `tok`. -/

/-- Oracle environment for the pipeline's external collaborators. -/
structure Env where
  isFile : String → Bool
  extractPdf : String → String
  extractDocx : String → String
  detect : String → Option String
  tokens : String → List String
  simGE : String → String → Rat → Bool
  fortune500 : List String

/-- Embedding of `is_english_text`: strip, fail below `min_chars`
characters, otherwise ask the detector (a detection error is `none` and
counts as not English). -/
def is_english_text (env : Env) (text : String) (min_chars : Nat) : Bool :=
  let t := pyStrip text
  if t.length < min_chars then false
  else
    match env.detect t with
    | some lang => lang == "en"
    | none => false

/-- Whether some token of `nlp(text)` has similarity at least `threshold`
with `nlp(kw)` (the `any(token.similarity(kw_doc) >= threshold ...)`
idiom). -/
def anyTokenSim (env : Env) (text kw : String) (threshold : Rat) : Bool :=
  (env.tokens text).any (fun tok => env.simGE tok kw threshold)

/-- Embedding of `get_found_required_with_locations`: per required
keyword the sources in which it was found, plus whether none was
missing. -/
def get_found_required_with_locations (env : Env) (pdf_text answers_text : String)
    (required_list : List String) (threshold : Rat) :
    List (String × List String) × Bool :=
  let r := required_list.foldl
    (fun (acc : List (String × List String) × Bool) req_kw =>
      let req_kw_stripped := pyStrip req_kw
      if req_kw_stripped = "" then acc
      else
        let found_places :=
          (if anyTokenSim env pdf_text (myLower req_kw_stripped) threshold
            then ["pdf"] else []) ++
          (if anyTokenSim env answers_text (myLower req_kw_stripped) threshold
            then ["answers"] else [])
        if found_places ≠ [] then (acc.1 ++ [(req_kw, found_places)], acc.2)
        else (acc.1, true))
    ([], false)
  (r.1, !r.2)

/-- Embedding of `get_found_optional_with_locations`. -/
def get_found_optional_with_locations (env : Env) (pdf_text answers_text : String)
    (optional_list : List String) (threshold : Rat) : List (String × List String) :=
  optional_list.foldl
    (fun acc opt_kw =>
      let kw_stripped := pyStrip opt_kw
      if kw_stripped = "" then acc
      else
        let found_places :=
          (if anyTokenSim env pdf_text (myLower kw_stripped) threshold
            then ["pdf"] else []) ++
          (if anyTokenSim env answers_text (myLower kw_stripped) threshold
            then ["answers"] else [])
        if found_places ≠ [] then acc ++ [(opt_kw, found_places)] else acc)
    []

/-- Embedding of `semantic_keyword_match`: whether any token of the
combined text reaches the threshold against any (stripped, non-empty)
user keyword. -/
def semantic_keyword_match (env : Env) (pdf_text answers_text : String)
    (user_keywords : List String) (threshold : Rat) : Bool :=
  let combined_text := pyOrStr pdf_text "" ++ " " ++ pyOrStr answers_text ""
  let kw_docs := (user_keywords.filter (fun kw => pyStrip kw ≠ "")).map pyStrip
  (env.tokens combined_text).any
    (fun tok => kw_docs.any (fun kw => env.simGE tok kw threshold))

/-! ## The evaluation pipeline (`process_applicants`) -/

/-- One row that passed every gate, with its diagnostic fields
(`row_dict` plus `found_symbols` / `found_required` / `found_optional`;
the symbol locations are `", "`-joined strings exactly as in the
source). -/
structure ResultRow where
  row : List (String × String)
  found_symbols : List (String × String)
  found_required : List (String × List String)
  found_optional : List (String × List String)
deriving Repr, DecidableEq

/-- The pipeline's stage counters and accumulated result rows. -/
structure PipeState where
  pdf_exists_count : Nat
  english_count : Nat
  short_answers_okay_count : Nat
  no_unallowed_count : Nat
  keywords_count : Nat
  final_pass_count : Nat
  results : List ResultRow
deriving Repr, DecidableEq

/-- The empty pipeline state. -/
def initState : PipeState := ⟨0, 0, 0, 0, 0, 0, []⟩

/-- The disallowed-employer gate of `process_applicants` (the unified
experience parsing and Fortune-500 check): rejecting means `continue`. -/
def unallowedGateRejects (experience_str file_text : String)
    (unallowed_phrases : List String) : Bool :=
  let companies_found := parse_experiences_lines experience_str
  if companies_found.isEmpty then
    decide (2 ≤ (count_unallowed_matches file_text unallowed_phrases).1)
  else
    companies_found.any (fun comp => unallowed_phrases.contains comp)

/-- The `", ".join(places)` rendering of the symbol dictionary stored in
`row_dict["found_symbols"]`. -/
def joinSymbolPlaces (found_symbols : List (String × List String)) :
    List (String × String) :=
  found_symbols.map (fun sp => (sp.1, pyJoin ", " sp.2))

/-- Per-applicant evaluation after successful text extraction
(lines 288-360 of `core_logic.py`); `st` already counts this applicant
in `pdf_exists_count`. -/
def evalExtracted (env : Env) (check_dollar check_percent : Bool)
    (required_list optional_list related_list : List String)
    (exclude_answers : Bool) (row : List (String × String))
    (file_text : String) (st : PipeState) : PipeState :=
  let answers_str :=
    if exclude_answers then ""
    else filter_ignored_questions ((row.lookup "answers").getD "")
  let combined_text :=
    if answers_str ≠ "" then file_text ++ " " ++ answers_str else file_text
  if !is_english_text env combined_text 50 then st
  else
    let st := { st with english_count := st.english_count + 1 }
    if !exclude_answers && has_two_or_more_short_answers answers_str 20 then st
    else
      let st := { st with
        short_answers_okay_count := st.short_answers_okay_count + 1 }
      let experience_str := pyStrip ((row.lookup "experience").getD "")
      if unallowedGateRejects experience_str file_text env.fortune500 then st
      else
        let st := { st with no_unallowed_count := st.no_unallowed_count + 1 }
        let symbol_base_text :=
          if exclude_answers then file_text else file_text ++ " " ++ answers_str
        let found_symbols :=
          get_found_symbols symbol_base_text "" check_dollar check_percent
        if check_dollar && (found_symbols.lookup "$").isNone then st
        else if check_percent && (found_symbols.lookup "%").isNone then st
        else
          let reqRes := get_found_required_with_locations env file_text
            (if !exclude_answers then answers_str else "") required_list (7 / 10)
          if !reqRes.2 then st
          else
            let found_optional := get_found_optional_with_locations env file_text
              (if !exclude_answers then answers_str else "") optional_list (7 / 10)
            if !semantic_keyword_match env file_text
                (if !exclude_answers then answers_str else "") related_list (7 / 10)
            then st
            else
              let st := { st with keywords_count := st.keywords_count + 1 }
              let st := { st with final_pass_count := st.final_pass_count + 1 }
              { st with results := st.results ++
                  [⟨row, joinSymbolPlaces found_symbols, reqRes.1, found_optional⟩] }

/-- Per-applicant evaluation (one iteration of the row loop of
`process_applicants`). -/
def processRow (env : Env) (pdf_folder : String) (check_dollar check_percent : Bool)
    (required_list optional_list related_list : List String)
    (exclude_answers : Bool) (st : PipeState) (row : List (String × String)) :
    PipeState :=
  let filename := pyStrip ((row.lookup "download").getD "")
  let file_path := pathJoin pdf_folder filename
  if !env.isFile file_path then st
  else
    let st := { st with pdf_exists_count := st.pdf_exists_count + 1 }
    let ext := myLower (extOf file_path)
    if ext = ".pdf" then
      evalExtracted env check_dollar check_percent required_list optional_list
        related_list exclude_answers row (env.extractPdf file_path) st
    else if ext = ".docx" then
      evalExtracted env check_dollar check_percent required_list optional_list
        related_list exclude_answers row (env.extractDocx file_path) st
    else st

/-- The rows of a data frame as association lists, in index order
(`df.iterrows()`). -/
def rowsOf (df : DataFrame) : List (List (String × String)) :=
  (List.range df.nrows).map
    (fun i => df.cols.map (fun c => (c.1, c.2.getD i "")))

/-- A keyword list from a text area: non-empty stripped lines
(`[kw.strip() for kw in text.split("\n") if kw.strip()]`). -/
def keywordLines (text : String) : List String :=
  ((splitOnStr text "\n").map pyStrip).filter (fun kw => kw ≠ "")

/-- Embedding of `process_applicants`.  `df0` is the raw data frame (the
result of `read_csv_with_fallback`).  The source checks
`"download" not in df.columns` at the top of every loop iteration and
breaks; `df.columns` never changes inside the loop, so that is a single
up-front check.  The result carries the six stage counters and the
passing rows (`filtered_df`). -/
def process_applicants (env : Env) (df0 : DataFrame) (pdf_folder : String)
    (check_dollar check_percent : Bool)
    (required_text optional_text related_text : String)
    (exclude_answers : Bool) : PipeState :=
  let df := normalize_dataframe df0
  let required_list := keywordLines required_text
  let optional_list := keywordLines optional_text
  let related_list := keywordLines related_text
  if "download" ∈ colNames df then
    (rowsOf df).foldl
      (processRow env pdf_folder check_dollar check_percent required_list
        optional_list related_list exclude_answers)
      initState
  else initState

/-! ## Shape of a pipeline step

Every iteration of the row loop either leaves the state unchanged or
increments a prefix of the counter chain, appending a result row exactly
when the whole chain is incremented. -/

/-- In `get_found_symbols` with an empty `answers_text` argument, every
recorded location list is exactly `["pdf"]`. -/
lemma get_found_symbols_no_answers (t : String) (cd cp : Bool) :
    ∀ p ∈ get_found_symbols t "" cd cp, p.2 = ["pdf"] := by
  intro p hp
  have hm : reSearch moneyRx "" = false := rfl
  have hq : reSearch percentRx "" = false := rfl
  unfold get_found_symbols at hp
  rw [hm, hq] at hp
  simp only [Bool.false_eq_true, if_false, List.append_nil] at hp
  rcases List.mem_append.mp hp with h | h
  · by_cases hcd : cd = true
    · rw [if_pos hcd] at h
      by_cases hst : reSearch moneyRx t = true
      · rw [if_pos hst] at h
        simp only [ne_eq, List.cons_ne_nil, not_false_iff, if_true,
          List.mem_singleton] at h
        rw [h]
      · rw [if_neg hst] at h
        simp at h
    · rw [if_neg hcd] at h
      simp at h
  · by_cases hcp : cp = true
    · rw [if_pos hcp] at h
      by_cases hst : reSearch percentRx t = true
      · rw [if_pos hst] at h
        simp only [ne_eq, List.cons_ne_nil, not_false_iff, if_true,
          List.mem_singleton] at h
        rw [h]
      · rw [if_neg hst] at h
        simp at h
    · rw [if_neg hcp] at h
      simp at h

/-- The `", "`-joined symbol locations attached by the pipeline are all
`"pdf"` (the `answers_text` argument at the call site is `""`). -/
lemma joinSymbolPlaces_pdf (t : String) (cd cp : Bool) :
    ∀ p ∈ joinSymbolPlaces (get_found_symbols t "" cd cp), p.2 = "pdf" := by
  intro p hp
  unfold joinSymbolPlaces at hp
  rcases List.mem_map.mp hp with ⟨q, hq, hpq⟩
  have h2 := get_found_symbols_no_answers t cd cp q hq
  subst hpq
  dsimp only
  rw [h2]
  rfl

/-- Shape of a gate chain: the abstract decision tree of
`evalExtracted` over arbitrary gate booleans. -/
lemma gateShape (g1 g2 g3 g4 g5 g6 g7 : Bool) (st : PipeState) (rr : ResultRow)
    (hrr : ∀ p ∈ rr.found_symbols, p.2 = "pdf") :
    (if g1 then st
     else if g2 then { st with english_count := st.english_count + 1 }
     else if g3 then
       { st with english_count := st.english_count + 1,
                 short_answers_okay_count := st.short_answers_okay_count + 1 }
     else if g4 then
       { st with english_count := st.english_count + 1,
                 short_answers_okay_count := st.short_answers_okay_count + 1,
                 no_unallowed_count := st.no_unallowed_count + 1 }
     else if g5 then
       { st with english_count := st.english_count + 1,
                 short_answers_okay_count := st.short_answers_okay_count + 1,
                 no_unallowed_count := st.no_unallowed_count + 1 }
     else if g6 then
       { st with english_count := st.english_count + 1,
                 short_answers_okay_count := st.short_answers_okay_count + 1,
                 no_unallowed_count := st.no_unallowed_count + 1 }
     else if g7 then
       { st with english_count := st.english_count + 1,
                 short_answers_okay_count := st.short_answers_okay_count + 1,
                 no_unallowed_count := st.no_unallowed_count + 1 }
     else
       { st with english_count := st.english_count + 1,
                 short_answers_okay_count := st.short_answers_okay_count + 1,
                 no_unallowed_count := st.no_unallowed_count + 1,
                 keywords_count := st.keywords_count + 1,
                 final_pass_count := st.final_pass_count + 1,
                 results := st.results ++ [rr] }) = st ∨
    (if g1 then st
     else if g2 then { st with english_count := st.english_count + 1 }
     else if g3 then
       { st with english_count := st.english_count + 1,
                 short_answers_okay_count := st.short_answers_okay_count + 1 }
     else if g4 then
       { st with english_count := st.english_count + 1,
                 short_answers_okay_count := st.short_answers_okay_count + 1,
                 no_unallowed_count := st.no_unallowed_count + 1 }
     else if g5 then
       { st with english_count := st.english_count + 1,
                 short_answers_okay_count := st.short_answers_okay_count + 1,
                 no_unallowed_count := st.no_unallowed_count + 1 }
     else if g6 then
       { st with english_count := st.english_count + 1,
                 short_answers_okay_count := st.short_answers_okay_count + 1,
                 no_unallowed_count := st.no_unallowed_count + 1 }
     else if g7 then
       { st with english_count := st.english_count + 1,
                 short_answers_okay_count := st.short_answers_okay_count + 1,
                 no_unallowed_count := st.no_unallowed_count + 1 }
     else
       { st with english_count := st.english_count + 1,
                 short_answers_okay_count := st.short_answers_okay_count + 1,
                 no_unallowed_count := st.no_unallowed_count + 1,
                 keywords_count := st.keywords_count + 1,
                 final_pass_count := st.final_pass_count + 1,
                 results := st.results ++ [rr] }) =
      { st with english_count := st.english_count + 1 } ∨
    (if g1 then st
     else if g2 then { st with english_count := st.english_count + 1 }
     else if g3 then
       { st with english_count := st.english_count + 1,
                 short_answers_okay_count := st.short_answers_okay_count + 1 }
     else if g4 then
       { st with english_count := st.english_count + 1,
                 short_answers_okay_count := st.short_answers_okay_count + 1,
                 no_unallowed_count := st.no_unallowed_count + 1 }
     else if g5 then
       { st with english_count := st.english_count + 1,
                 short_answers_okay_count := st.short_answers_okay_count + 1,
                 no_unallowed_count := st.no_unallowed_count + 1 }
     else if g6 then
       { st with english_count := st.english_count + 1,
                 short_answers_okay_count := st.short_answers_okay_count + 1,
                 no_unallowed_count := st.no_unallowed_count + 1 }
     else if g7 then
       { st with english_count := st.english_count + 1,
                 short_answers_okay_count := st.short_answers_okay_count + 1,
                 no_unallowed_count := st.no_unallowed_count + 1 }
     else
       { st with english_count := st.english_count + 1,
                 short_answers_okay_count := st.short_answers_okay_count + 1,
                 no_unallowed_count := st.no_unallowed_count + 1,
                 keywords_count := st.keywords_count + 1,
                 final_pass_count := st.final_pass_count + 1,
                 results := st.results ++ [rr] }) =
      { st with english_count := st.english_count + 1,
                short_answers_okay_count := st.short_answers_okay_count + 1 } ∨
    (if g1 then st
     else if g2 then { st with english_count := st.english_count + 1 }
     else if g3 then
       { st with english_count := st.english_count + 1,
                 short_answers_okay_count := st.short_answers_okay_count + 1 }
     else if g4 then
       { st with english_count := st.english_count + 1,
                 short_answers_okay_count := st.short_answers_okay_count + 1,
                 no_unallowed_count := st.no_unallowed_count + 1 }
     else if g5 then
       { st with english_count := st.english_count + 1,
                 short_answers_okay_count := st.short_answers_okay_count + 1,
                 no_unallowed_count := st.no_unallowed_count + 1 }
     else if g6 then
       { st with english_count := st.english_count + 1,
                 short_answers_okay_count := st.short_answers_okay_count + 1,
                 no_unallowed_count := st.no_unallowed_count + 1 }
     else if g7 then
       { st with english_count := st.english_count + 1,
                 short_answers_okay_count := st.short_answers_okay_count + 1,
                 no_unallowed_count := st.no_unallowed_count + 1 }
     else
       { st with english_count := st.english_count + 1,
                 short_answers_okay_count := st.short_answers_okay_count + 1,
                 no_unallowed_count := st.no_unallowed_count + 1,
                 keywords_count := st.keywords_count + 1,
                 final_pass_count := st.final_pass_count + 1,
                 results := st.results ++ [rr] }) =
      { st with english_count := st.english_count + 1,
                short_answers_okay_count := st.short_answers_okay_count + 1,
                no_unallowed_count := st.no_unallowed_count + 1 } ∨
    ∃ rr2 : ResultRow,
      (∀ p ∈ rr2.found_symbols, p.2 = "pdf") ∧
      (if g1 then st
       else if g2 then { st with english_count := st.english_count + 1 }
       else if g3 then
         { st with english_count := st.english_count + 1,
                   short_answers_okay_count := st.short_answers_okay_count + 1 }
       else if g4 then
         { st with english_count := st.english_count + 1,
                   short_answers_okay_count := st.short_answers_okay_count + 1,
                   no_unallowed_count := st.no_unallowed_count + 1 }
       else if g5 then
         { st with english_count := st.english_count + 1,
                   short_answers_okay_count := st.short_answers_okay_count + 1,
                   no_unallowed_count := st.no_unallowed_count + 1 }
       else if g6 then
         { st with english_count := st.english_count + 1,
                   short_answers_okay_count := st.short_answers_okay_count + 1,
                   no_unallowed_count := st.no_unallowed_count + 1 }
       else if g7 then
         { st with english_count := st.english_count + 1,
                   short_answers_okay_count := st.short_answers_okay_count + 1,
                   no_unallowed_count := st.no_unallowed_count + 1 }
       else
         { st with english_count := st.english_count + 1,
                   short_answers_okay_count := st.short_answers_okay_count + 1,
                   no_unallowed_count := st.no_unallowed_count + 1,
                   keywords_count := st.keywords_count + 1,
                   final_pass_count := st.final_pass_count + 1,
                   results := st.results ++ [rr] }) =
        { st with english_count := st.english_count + 1,
                  short_answers_okay_count := st.short_answers_okay_count + 1,
                  no_unallowed_count := st.no_unallowed_count + 1,
                  keywords_count := st.keywords_count + 1,
                  final_pass_count := st.final_pass_count + 1,
                  results := st.results ++ [rr2] } := by
  cases g1 <;> cases g2 <;> cases g3 <;> cases g4 <;> cases g5 <;> cases g6 <;>
    cases g7 <;>
    first
      | exact Or.inl rfl
      | exact Or.inr (Or.inl rfl)
      | exact Or.inr (Or.inr (Or.inl rfl))
      | exact Or.inr (Or.inr (Or.inr (Or.inl rfl)))
      | exact Or.inr (Or.inr (Or.inr (Or.inr (Exists.intro rr (And.intro hrr rfl)))))

set_option maxHeartbeats 2000000 in
/-- Case analysis on `evalExtracted`: it either drops the applicant at
one of the gates (leaving a prefix of the counters incremented) or
passes it, incrementing all remaining counters and appending one result
row whose symbol locations are all `"pdf"`. -/
lemma evalExtracted_shape (env : Env) (cd cp : Bool) (rl ol tl : List String)
    (ex : Bool) (row : List (String × String)) (ft : String) (st : PipeState) :
    evalExtracted env cd cp rl ol tl ex row ft st = st ∨
    evalExtracted env cd cp rl ol tl ex row ft st =
      { st with english_count := st.english_count + 1 } ∨
    evalExtracted env cd cp rl ol tl ex row ft st =
      { st with english_count := st.english_count + 1,
                short_answers_okay_count := st.short_answers_okay_count + 1 } ∨
    evalExtracted env cd cp rl ol tl ex row ft st =
      { st with english_count := st.english_count + 1,
                short_answers_okay_count := st.short_answers_okay_count + 1,
                no_unallowed_count := st.no_unallowed_count + 1 } ∨
    ∃ rr : ResultRow,
      (∀ p ∈ rr.found_symbols, p.2 = "pdf") ∧
      evalExtracted env cd cp rl ol tl ex row ft st =
        { st with english_count := st.english_count + 1,
                  short_answers_okay_count := st.short_answers_okay_count + 1,
                  no_unallowed_count := st.no_unallowed_count + 1,
                  keywords_count := st.keywords_count + 1,
                  final_pass_count := st.final_pass_count + 1,
                  results := st.results ++ [rr] } := by
  exact gateShape _ _ _ _ _ _ _ st
    ⟨row,
      joinSymbolPlaces (get_found_symbols
        (if ex then ft
          else ft ++ " " ++
            (if ex then ""
              else filter_ignored_questions ((row.lookup "answers").getD "")))
        "" cd cp),
      (get_found_required_with_locations env ft
        (if !ex then
          (if ex then ""
            else filter_ignored_questions ((row.lookup "answers").getD ""))
          else "") rl (7 / 10)).1,
      get_found_optional_with_locations env ft
        (if !ex then
          (if ex then ""
            else filter_ignored_questions ((row.lookup "answers").getD ""))
          else "") ol (7 / 10)⟩
    (joinSymbolPlaces_pdf _ cd cp)

/-- Case analysis on `processRow`: same shapes as `evalExtracted`, with
the `pdf_exists_count` increment in front. -/
lemma processRow_shape (env : Env) (folder : String) (cd cp : Bool)
    (rl ol tl : List String) (ex : Bool) (st : PipeState)
    (row : List (String × String)) :
    processRow env folder cd cp rl ol tl ex st row = st ∨
    processRow env folder cd cp rl ol tl ex st row =
      { st with pdf_exists_count := st.pdf_exists_count + 1 } ∨
    processRow env folder cd cp rl ol tl ex st row =
      { st with pdf_exists_count := st.pdf_exists_count + 1,
                english_count := st.english_count + 1 } ∨
    processRow env folder cd cp rl ol tl ex st row =
      { st with pdf_exists_count := st.pdf_exists_count + 1,
                english_count := st.english_count + 1,
                short_answers_okay_count := st.short_answers_okay_count + 1 } ∨
    processRow env folder cd cp rl ol tl ex st row =
      { st with pdf_exists_count := st.pdf_exists_count + 1,
                english_count := st.english_count + 1,
                short_answers_okay_count := st.short_answers_okay_count + 1,
                no_unallowed_count := st.no_unallowed_count + 1 } ∨
    ∃ rr : ResultRow,
      (∀ p ∈ rr.found_symbols, p.2 = "pdf") ∧
      processRow env folder cd cp rl ol tl ex st row =
        { st with pdf_exists_count := st.pdf_exists_count + 1,
                  english_count := st.english_count + 1,
                  short_answers_okay_count := st.short_answers_okay_count + 1,
                  no_unallowed_count := st.no_unallowed_count + 1,
                  keywords_count := st.keywords_count + 1,
                  final_pass_count := st.final_pass_count + 1,
                  results := st.results ++ [rr] } := by
  simp only [processRow]
  split
  · exact Or.inl rfl
  split
  · rcases evalExtracted_shape env cd cp rl ol tl ex row _
        { st with pdf_exists_count := st.pdf_exists_count + 1 } with
      h | h | h | h | ⟨rr, hrr, h⟩ <;> rw [h]
    · exact Or.inr (Or.inl rfl)
    · exact Or.inr (Or.inr (Or.inl rfl))
    · exact Or.inr (Or.inr (Or.inr (Or.inl rfl)))
    · exact Or.inr (Or.inr (Or.inr (Or.inr (Or.inl rfl))))
    · exact Or.inr (Or.inr (Or.inr (Or.inr (Or.inr ⟨rr, hrr, rfl⟩))))
  split
  · rcases evalExtracted_shape env cd cp rl ol tl ex row _
        { st with pdf_exists_count := st.pdf_exists_count + 1 } with
      h | h | h | h | ⟨rr, hrr, h⟩ <;> rw [h]
    · exact Or.inr (Or.inl rfl)
    · exact Or.inr (Or.inr (Or.inl rfl))
    · exact Or.inr (Or.inr (Or.inr (Or.inl rfl)))
    · exact Or.inr (Or.inr (Or.inr (Or.inr (Or.inl rfl))))
    · exact Or.inr (Or.inr (Or.inr (Or.inr (Or.inr ⟨rr, hrr, rfl⟩))))
  · exact Or.inr (Or.inl rfl)

/-- Fold preservation: a property preserved by every pipeline step holds
of the folded state. -/
lemma foldl_preserve {α β : Type} (f : α → β → α) (P : α → Prop)
    (hstep : ∀ a b, P a → P (f a b)) :
    ∀ (l : List β) (a : α), P a → P (l.foldl f a)
  | [], _, h => h
  | b :: l, a, h => foldl_preserve f P hstep l (f a b) (hstep a b h)

/-- The funnel invariant on a pipeline state: each counter is bounded by
the previous stage's counter. -/
def FunnelInv (st : PipeState) : Prop :=
  st.english_count ≤ st.pdf_exists_count ∧
  st.short_answers_okay_count ≤ st.english_count ∧
  st.no_unallowed_count ≤ st.short_answers_okay_count ∧
  st.keywords_count ≤ st.no_unallowed_count ∧
  st.final_pass_count ≤ st.keywords_count

lemma processRow_funnel (env : Env) (folder : String) (cd cp : Bool)
    (rl ol tl : List String) (ex : Bool) (st : PipeState)
    (row : List (String × String)) (h : FunnelInv st) :
    FunnelInv (processRow env folder cd cp rl ol tl ex st row) := by
  obtain ⟨h1, h2, h3, h4, h5⟩ := h
  rcases processRow_shape env folder cd cp rl ol tl ex st row with
    hs | hs | hs | hs | hs | ⟨rr, _, hs⟩ <;> rw [hs] <;>
    simp only [FunnelInv] <;> omega

/-- The six stage counters of a state, in pipeline order. -/
def counterVec (st : PipeState) : List Nat :=
  [st.pdf_exists_count, st.english_count, st.short_answers_okay_count,
   st.no_unallowed_count, st.keywords_count, st.final_pass_count]

/-- Each pipeline step increments exactly a prefix of the counter chain,
each counter by one. -/
lemma processRow_prefix_bump (env : Env) (folder : String) (cd cp : Bool)
    (rl ol tl : List String) (ex : Bool) (st : PipeState)
    (row : List (String × String)) :
    ∃ k, k ≤ 6 ∧
      counterVec (processRow env folder cd cp rl ol tl ex st row) =
        List.mapIdx (fun i c => if i < k then c + 1 else c) (counterVec st) := by
  rcases processRow_shape env folder cd cp rl ol tl ex st row with
    hs | hs | hs | hs | hs | ⟨rr, _, hs⟩ <;> rw [hs]
  · exact ⟨0, by omega, rfl⟩
  · exact ⟨1, by omega, rfl⟩
  · exact ⟨2, by omega, rfl⟩
  · exact ⟨3, by omega, rfl⟩
  · exact ⟨4, by omega, rfl⟩
  · exact ⟨6, by omega, rfl⟩

/-- The keyword-equals-final invariant: the last two counters agree and
count exactly the accumulated result rows. -/
def TailInv (st : PipeState) : Prop :=
  st.keywords_count = st.final_pass_count ∧
  st.final_pass_count = st.results.length

lemma processRow_tail (env : Env) (folder : String) (cd cp : Bool)
    (rl ol tl : List String) (ex : Bool) (st : PipeState)
    (row : List (String × String)) (h : TailInv st) :
    TailInv (processRow env folder cd cp rl ol tl ex st row) := by
  obtain ⟨h1, h2⟩ := h
  rcases processRow_shape env folder cd cp rl ol tl ex st row with
    hs | hs | hs | hs | hs | ⟨rr, _, hs⟩ <;> rw [hs] <;>
    simp only [TailInv, List.length_append, List.length_cons,
      List.length_nil] <;> omega

/-- Every result row accumulated by the pipeline has all its symbol
locations equal to `"pdf"`. -/
def SymbolsPdfInv (st : PipeState) : Prop :=
  ∀ r ∈ st.results, ∀ p ∈ r.found_symbols, p.2 = "pdf"

lemma processRow_symbolsPdf (env : Env) (folder : String) (cd cp : Bool)
    (rl ol tl : List String) (ex : Bool) (st : PipeState)
    (row : List (String × String)) (h : SymbolsPdfInv st) :
    SymbolsPdfInv (processRow env folder cd cp rl ol tl ex st row) := by
  rcases processRow_shape env folder cd cp rl ol tl ex st row with
    hs | hs | hs | hs | hs | ⟨rr, hrr, hs⟩ <;> rw [hs] <;>
    intro r hr
  iterate 5 exact h r hr
  rcases List.mem_append.mp hr with h1 | h1
  · exact h r h1
  · rw [List.mem_singleton.mp h1]
    exact hrr

/-- A property preserved by every pipeline step and true of `initState`
holds of the output of `process_applicants`. -/
lemma process_applicants_inv (P : PipeState → Prop)
    (env : Env) (df0 : DataFrame) (folder : String) (cd cp : Bool)
    (rt ot lt : String) (ex : Bool)
    (hstep : ∀ rl ol tl st row,
      P st → P (processRow env folder cd cp rl ol tl ex st row))
    (hinit : P initState) :
    P (process_applicants env df0 folder cd cp rt ot lt ex) := by
  unfold process_applicants
  dsimp only
  split
  · exact foldl_preserve _ P (fun a b => hstep _ _ _ a b) _ _ hinit
  · exact hinit

/-- Claim C1: in every run of `process_applicants` the six returned stage
counters form a monotonic funnel
(`pdf_exists ≥ english ≥ short_answers_okay ≥ no_unallowed ≥ keywords ≥
final_pass`), and each loop iteration increments exactly a prefix of the
counter chain by one, in strict pipeline order. -/
theorem C1_monotonic_funnel (env : Env) (df0 : DataFrame) (folder : String)
    (cd cp : Bool) (rt ot lt : String) (ex : Bool) :
    ((process_applicants env df0 folder cd cp rt ot lt ex).english_count ≤
        (process_applicants env df0 folder cd cp rt ot lt ex).pdf_exists_count ∧
      (process_applicants env df0 folder cd cp rt ot lt ex).short_answers_okay_count ≤
        (process_applicants env df0 folder cd cp rt ot lt ex).english_count ∧
      (process_applicants env df0 folder cd cp rt ot lt ex).no_unallowed_count ≤
        (process_applicants env df0 folder cd cp rt ot lt ex).short_answers_okay_count ∧
      (process_applicants env df0 folder cd cp rt ot lt ex).keywords_count ≤
        (process_applicants env df0 folder cd cp rt ot lt ex).no_unallowed_count ∧
      (process_applicants env df0 folder cd cp rt ot lt ex).final_pass_count ≤
        (process_applicants env df0 folder cd cp rt ot lt ex).keywords_count) ∧
    ∀ (rl ol tl : List String) (st : PipeState) (row : List (String × String)),
      ∃ k, k ≤ 6 ∧
        counterVec (processRow env folder cd cp rl ol tl ex st row) =
          List.mapIdx (fun i c => if i < k then c + 1 else c) (counterVec st) := by
  constructor
  · exact process_applicants_inv FunnelInv env df0 folder cd cp rt ot lt ex
      (fun rl ol tl st row h => processRow_funnel env folder cd cp rl ol tl ex st row h)
      ⟨Nat.le_refl 0, Nat.le_refl 0, Nat.le_refl 0, Nat.le_refl 0, Nat.le_refl 0⟩
  · exact fun rl ol tl st row => processRow_prefix_bump env folder cd cp rl ol tl ex st row

/-- Claim C10: on return of `process_applicants`, the keyword-match
counter, the final-pass counter and the number of returned result rows
all coincide: after the related-keyword gate there is no further way to
fail. -/
theorem C10_keywords_eq_final (env : Env) (df0 : DataFrame) (folder : String)
    (cd cp : Bool) (rt ot lt : String) (ex : Bool) :
    (process_applicants env df0 folder cd cp rt ot lt ex).keywords_count =
      (process_applicants env df0 folder cd cp rt ot lt ex).final_pass_count ∧
    (process_applicants env df0 folder cd cp rt ot lt ex).final_pass_count =
      (process_applicants env df0 folder cd cp rt ot lt ex).results.length := by
  exact process_applicants_inv TailInv env df0 folder cd cp rt ot lt ex
    (fun rl ol tl st row h => processRow_tail env folder cd cp rl ol tl ex st row h)
    ⟨rfl, rfl⟩

/-- Claim C4: if, after normalization, the rows have no `download` column
at all, `process_applicants` stops before evaluating any row: it returns
the empty result set and all six stage counters are zero
(`initState`). -/
theorem C4_no_download_column (env : Env) (df0 : DataFrame) (folder : String)
    (cd cp : Bool) (rt ot lt : String) (ex : Bool)
    (h : "download" ∉ colNames (normalize_dataframe df0)) :
    process_applicants env df0 folder cd cp rt ot lt ex = initState := by
  unfold process_applicants
  dsimp only
  rw [if_neg h]

/-- Witness for C4 at a concrete input: a one-column table with no
resume-filename column. -/
theorem C4_no_download_column_witness :
    "download" ∉ colNames (normalize_dataframe ⟨[("name", ["Ann"])], 1⟩) ∧
    process_applicants
      ⟨fun _ => true, fun _ => "", fun _ => "", fun _ => some "en",
        fun _ => [], fun _ _ _ => true, []⟩
      ⟨[("name", ["Ann"])], 1⟩ "folder" false false "" "" "" false = initState :=
  ⟨by decide,
    C4_no_download_column _ _ "folder" false false "" "" "" false (by decide)⟩

/-! ## Claim C8: the is-English gate -/

/-- The concrete environment used for the C8 counterexample: language
detection always reports English. -/
def envC8 : Env :=
  ⟨fun _ => true, fun _ => "", fun _ => "", fun _ => some "en",
    fun _ => [], fun _ _ _ => true, []⟩

/-- The padded text of the C8 counterexample: 50 spaces and 5 letters. -/
def padTextC8 : String :=
  ⟨List.replicate 50 ' '⟩ ++ "Hello"

/-- Claim C8 counterexample: a combined text of 55 characters that the
detector reports as English still fails the gate, because
`is_english_text` measures the 50-character minimum on the
whitespace-stripped text (here 5 characters). -/
theorem C8_counterexample :
    50 ≤ padTextC8.length ∧
    envC8.detect padTextC8 = some "en" ∧
    envC8.detect (pyStrip padTextC8) = some "en" ∧
    is_english_text envC8 padTextC8 50 = false := by
  refine ⟨by decide, rfl, rfl, by decide⟩

/-- Claim C8 (amended): the gate strips the combined text first; the
stripped text passes iff it has at least 50 characters and the detector
returns exactly `"en"` on it (a detection error, modelled as `none`,
counts as not English), and any text whose stripped form is shorter than
50 characters always fails. -/
theorem C8_english_gate (env : Env) (text : String) :
    is_english_text env text 50 = true ↔
      (50 ≤ (pyStrip text).length ∧ env.detect (pyStrip text) = some "en") := by
  unfold is_english_text
  dsimp only
  split
  · constructor
    · intro h
      exact absurd h (by simp)
    · intro ⟨h1, _⟩
      omega
  · rename_i hlen
    cases hdet : env.detect (pyStrip text) with
    | none => simp [hdet]
    | some lang =>
      simp only [beq_iff_eq, Option.some.injEq]
      constructor
      · intro h
        exact ⟨by omega, h⟩
      · intro ⟨_, h⟩
        exact h

/-! ## Claim C2: symbol checks and their recorded locations -/

/-- Resume text of the C2 counterexample run (no dollar pattern). -/
def resumeC2 : String :=
  "This is a plain resume text with enough characters to pass the length gate."

/-- Answers blob of the C2 counterexample run (contains `$100`). -/
def answersC2 : String :=
  "---------- Question 1: Tell me about growth\n---------- Answer 1: We grew to $100 in revenue"

/-- Environment of the C2 counterexample run. -/
def envC2 : Env :=
  ⟨fun _ => true, fun _ => resumeC2, fun _ => "", fun _ => some "en",
    fun _ => ["w"], fun _ _ _ => true, []⟩

/-- Input table of the C2 counterexample run. -/
def dfC2 : DataFrame :=
  ⟨[("download", ["r.pdf"]), ("answers", [answersC2])], 1⟩

/-- The C2 counterexample run (dollar check enabled). -/
def outC2 : PipeState :=
  process_applicants envC2 dfC2 "folder" true false "" "" "growth" false

set_option maxRecDepth 8000 in
/-- Claim C2 counterexample: an applicant whose answers (and not whose
resume) contain a dollar-pattern match passes the pipeline, but the
attached `found_symbols` maps `"$"` to the location string `"pdf"`,
which does not contain `"answers"` — because `process_applicants` passes
the combined text as the `pdf_text` argument and `""` as the
`answers_text` argument of `get_found_symbols`. -/
theorem C2_counterexample :
    reSearch moneyRx answersC2 = true ∧
    reSearch moneyRx resumeC2 = false ∧
    outC2.results.map (fun r => r.found_symbols) = [[("$", "pdf")]] ∧
    containsStr "answers" "pdf" = false := by
  refine ⟨by decide, by decide, by decide, by decide⟩

/-- Claim C2 (amended): `get_found_symbols` itself checks each enabled
pattern independently against its two text arguments and records every
matching source (`"pdf"` for the first argument, `"answers"` for the
second); but `process_applicants` calls it with the combined
resume-plus-answers text as the first argument and the empty string as
the second, so the `found_symbols` diagnostic attached to a passing
applicant always maps each found symbol to exactly `"pdf"` — an
answers-only dollar match is recorded under `"pdf"`, not `"answers"`. -/
theorem C2_symbol_locations :
    (∀ (t a : String) (cd cp : Bool),
      ((get_found_symbols t a cd cp).lookup "$" =
        if cd ∧ (reSearch moneyRx t ∨ reSearch moneyRx a) then
          some ((if reSearch moneyRx t then ["pdf"] else []) ++
                (if reSearch moneyRx a then ["answers"] else []))
        else none) ∧
      ((get_found_symbols t a cd cp).lookup "%" =
        if cp ∧ (reSearch percentRx t ∨ reSearch percentRx a) then
          some ((if reSearch percentRx t then ["pdf"] else []) ++
                (if reSearch percentRx a then ["answers"] else []))
        else none)) ∧
    ∀ (env : Env) (df0 : DataFrame) (folder : String) (cd cp : Bool)
      (rt ot lt : String) (ex : Bool),
      ∀ r ∈ (process_applicants env df0 folder cd cp rt ot lt ex).results,
        ∀ p ∈ r.found_symbols, p.2 = "pdf" := by
  constructor
  · intro t a cd cp
    rcases Bool.eq_false_or_eq_true cd with hcd | hcd <;>
      rcases Bool.eq_false_or_eq_true cp with hcp | hcp <;>
      rcases Bool.eq_false_or_eq_true (reSearch moneyRx t) with h1 | h1 <;>
      rcases Bool.eq_false_or_eq_true (reSearch moneyRx a) with h2 | h2 <;>
      rcases Bool.eq_false_or_eq_true (reSearch percentRx t) with h3 | h3 <;>
      rcases Bool.eq_false_or_eq_true (reSearch percentRx a) with h4 | h4 <;>
      simp only [get_found_symbols, hcd, hcp, h1, h2, h3, h4] <;>
      exact ⟨by decide, by decide⟩
  · intro env df0 folder cd cp rt ot lt ex
    exact process_applicants_inv SymbolsPdfInv env df0 folder cd cp rt ot lt ex
      (fun rl ol tl st row h =>
        processRow_symbolsPdf env folder cd cp rl ol tl ex st row h)
      (by intro r hr; cases hr)

set_option maxRecDepth 8000 in
/-- Witness for C2 (amended) at concrete inputs: the dollar entry of an
independent two-text call, and the `"pdf"`-only location of the symbol
entry attached to the passing applicant of the counterexample run. -/
theorem C2_symbol_locations_witness :
    (get_found_symbols "no match here" "grew $5 fast" true false).lookup "$" =
      some ["answers"] ∧
    ("$", "pdf") ∈ (ResultRow.mk
      [("download", "r.pdf"), ("answers", answersC2), ("id", "")]
      [("$", "pdf")] [] []).found_symbols ∧
    (("$", "pdf") : String × String).2 = "pdf" := by
  refine ⟨?_, by decide, ?_⟩
  · have h := (C2_symbol_locations.1 "no match here" "grew $5 fast" true false).1
    rw [h]
    decide
  · have hr : (ResultRow.mk
        [("download", "r.pdf"), ("answers", answersC2), ("id", "")]
        [("$", "pdf")] [] []) ∈ outC2.results := by decide
    exact C2_symbol_locations.2 envC2 dfC2 "folder" true false "" "" "growth" false
      _ hr ("$", "pdf") (by decide)

/-! ## Claim C3: the text-extraction stage -/

/-- Answers blob of the C3 counterexample run (long enough to pass the
English gate on its own). -/
def answersC3 : String :=
  "---------- Question 1: Tell me about your background\n---------- Answer 1: I have been working on interesting software projects for a number of years now"

/-- Environment of the C3 counterexample run: PDF extraction fails
non-fatally, returning no text. -/
def envC3 : Env :=
  ⟨fun _ => true, fun _ => "", fun _ => "", fun _ => some "en",
    fun _ => ["w"], fun _ _ _ => true, []⟩

/-- Input table of the C3 counterexample run. -/
def dfC3 : DataFrame :=
  ⟨[("download", ["r.pdf"]), ("answers", [answersC3])], 1⟩

set_option maxRecDepth 8000 in
/-- Claim C3 counterexample: an applicant whose `.pdf` extraction fails
(returns no text) is not skipped before the language-detection stage:
with rich answers the combined text still passes the English gate, so
`english_count` is incremented (here the applicant even passes the whole
pipeline). -/
theorem C3_counterexample :
    envC3.extractPdf "folder/r.pdf" = "" ∧
    (process_applicants envC3 dfC3 "folder" false false "" "" "x" false).english_count = 1 ∧
    (process_applicants envC3 dfC3 "folder" false false "" "" "x" false).final_pass_count = 1 := by
  refine ⟨rfl, by decide, by decide⟩

/-- Claim C3 (amended): for an applicant whose resume file exists, an
extension that is neither `.pdf` nor `.docx` skips the applicant before
every later stage (only `pdf_exists_count` is incremented); a failed
`.pdf` extraction, however, is not an immediate skip — the applicant
proceeds with empty resume text to the language-detection gate, and is
dropped there whenever no answers text remains (answers excluded or
empty), since the empty combined text is shorter than 50 characters. -/
theorem C3_extraction_stage (env : Env) (folder : String) (cd cp : Bool)
    (rl ol tl : List String) (ex : Bool) (st : PipeState)
    (row : List (String × String)) :
    (env.isFile (pathJoin folder (pyStrip ((row.lookup "download").getD ""))) = true →
      myLower (extOf (pathJoin folder (pyStrip ((row.lookup "download").getD "")))) ≠ ".pdf" →
      myLower (extOf (pathJoin folder (pyStrip ((row.lookup "download").getD "")))) ≠ ".docx" →
      processRow env folder cd cp rl ol tl ex st row =
        { st with pdf_exists_count := st.pdf_exists_count + 1 }) ∧
    (env.isFile (pathJoin folder (pyStrip ((row.lookup "download").getD ""))) = true →
      myLower (extOf (pathJoin folder (pyStrip ((row.lookup "download").getD "")))) = ".pdf" →
      env.extractPdf (pathJoin folder (pyStrip ((row.lookup "download").getD ""))) = "" →
      (ex = true ∨ (row.lookup "answers").getD "" = "") →
      processRow env folder cd cp rl ol tl ex st row =
        { st with pdf_exists_count := st.pdf_exists_count + 1 }) := by
  constructor
  · intro hfile hpdf hdocx
    unfold processRow
    dsimp only
    rw [hfile]
    simp only [Bool.not_true, Bool.false_eq_true, if_false, if_neg hpdf, if_neg hdocx]
  · intro hfile hpdf hempty hans
    have hans' : (if ex = true then ""
        else filter_ignored_questions ((row.lookup "answers").getD "")) = "" := by
      cases ex with
      | true => rfl
      | false =>
        rcases hans with h | h
        · exact Bool.noConfusion h
        · simp only [Bool.false_eq_true, if_false, h]
          rfl
    unfold processRow
    dsimp only
    rw [hfile]
    simp only [Bool.not_true, Bool.false_eq_true, if_false, if_pos hpdf, hempty]
    unfold evalExtracted
    dsimp only
    rw [hans']
    have heng : is_english_text env "" 50 = false := by
      unfold is_english_text
      dsimp only
      rw [if_pos (by decide : (pyStrip "").length < 50)]
    simp only [ne_eq, not_true_eq_false, if_false, heng]
    rfl

set_option maxRecDepth 8000 in
/-- Witness for C3 (amended) at concrete inputs: a `.txt` resume is
dropped right after the existence stage, and a failed `.pdf` extraction
with excluded answers is dropped at the English gate, leaving only
`pdf_exists_count` incremented in both cases. -/
theorem C3_extraction_stage_witness :
    envC3.isFile "folder/r.txt" = true ∧
    myLower (extOf "folder/r.txt") ≠ ".pdf" ∧
    myLower (extOf "folder/r.txt") ≠ ".docx" ∧
    processRow envC3 "folder" false false [] [] [] false initState
      [("download", "r.txt")] =
      { initState with pdf_exists_count := 1 } ∧
    envC3.extractPdf "folder/r.pdf" = "" ∧
    processRow envC3 "folder" false false [] [] [] true initState
      [("download", "r.pdf")] =
      { initState with pdf_exists_count := 1 } :=
  ⟨rfl, by decide, by decide,
    (C3_extraction_stage envC3 "folder" false false [] [] [] false initState
      [("download", "r.txt")]).1 rfl (by decide) (by decide),
    rfl,
    (C3_extraction_stage envC3 "folder" false false [] [] [] true initState
      [("download", "r.pdf")]).2 rfl (by decide) rfl (Or.inl rfl)⟩

/-! ## Claim C7: the two-short-answers heuristic

`has_two_or_more_short_answers` early-exits at the second short answer;
we characterise its value through the list of question/answer units the
loop examines. -/

/-- The question/answer units examined by the parsing loop, with the
same pending-question evolution as `hasTwoAux`: an answer block pairs
with the pending question (empty when absent), a pending question
survives an ignored answer, and an unlabeled block pairs its own label
with its content. -/
def qaUnitsAux : List String → Option String → List (String × String)
  | [], _ => []
  | block :: rest, pending =>
    let b := pyStrip block
    if b = "" then qaUnitsAux rest pending
    else
      match splitColon1 b with
      | none => qaUnitsAux rest pending
      | some parts =>
        let label_text := pyStrip parts.1
        let content_text := pyStrip parts.2
        if pyStartsWith (myLower label_text) "question " then
          qaUnitsAux rest (some content_text)
        else if pyStartsWith (myLower label_text) "answer " then
          (pending.getD "", content_text) ::
            qaUnitsAux rest
              (if is_ignored_question (pending.getD "") then pending else none)
        else
          (label_text, content_text) :: qaUnitsAux rest pending

/-- A unit counts as short: non-ignorable question and an answer of
fewer than `min_words` whitespace-delimited tokens. -/
def shortUnit (min_words : Nat) (u : String × String) : Bool :=
  !is_ignored_question u.1 && decide ((pyWords u.2).length < min_words)

/-- The number of short non-ignorable answers in a blob, in blob
order. -/
def countShortAnswers (blob : String) (min_words : Nat) : Nat :=
  ((qaUnitsAux (splitOnStr blob "----------") none).filter
    (shortUnit min_words)).length

lemma hasTwoAux_iff (mw : Nat) (blocks : List String) :
    ∀ (sc : Nat) (pending : Option String), sc < 2 →
    (hasTwoAux mw blocks sc pending = true ↔
      2 ≤ sc + ((qaUnitsAux blocks pending).filter (shortUnit mw)).length) := by
  induction blocks with
  | nil =>
    intro sc pending hsc
    simp [hasTwoAux, qaUnitsAux]
  | cons block rest ih =>
    intro sc pending hsc
    simp only [hasTwoAux, qaUnitsAux]
    by_cases hb : pyStrip block = ""
    · simp only [hb, eq_self_iff_true, if_true]
      exact ih sc pending hsc
    · simp only [if_neg hb]
      cases hsp : splitColon1 (pyStrip block) with
      | none =>
        exact ih sc pending hsc
      | some parts =>
        by_cases hq : pyStartsWith (myLower (pyStrip parts.1)) "question " = true
        · simp only [hq, if_true]
          exact ih sc (some (pyStrip parts.2)) hsc
        · simp only [hq, Bool.false_eq_true, if_false]
          by_cases ha : pyStartsWith (myLower (pyStrip parts.1)) "answer " = true
          · simp only [ha, if_true]
            by_cases hi : is_ignored_question (pending.getD "") = true
            · simp only [hi, if_true, List.filter_cons, shortUnit, Bool.not_true,
                Bool.false_and, Bool.false_eq_true, if_false]
              exact ih sc pending hsc
            · rw [Bool.not_eq_true] at hi
              rcases Nat.lt_or_ge (pyWords (pyStrip parts.2)).length mw with hw | hw
              · have hw' : decide ((pyWords (pyStrip parts.2)).length < mw) = true :=
                  decide_eq_true hw
                simp only [hi, Bool.false_eq_true, if_false, List.filter_cons,
                  shortUnit, Bool.not_false, Bool.true_and, hw',
                  eq_self_iff_true, if_true, List.length_cons]
                simp only [hw, if_true]
                by_cases hs2 : 2 ≤ sc + 1
                · simp only [hs2, if_true]
                  exact iff_of_true (by trivial) (by omega)
                · simp only [hs2, if_false]
                  rw [ih (sc + 1) none (by omega)]
                  omega
              · have hnw : ¬((pyWords (pyStrip parts.2)).length < mw) := by omega
                have hw' : decide ((pyWords (pyStrip parts.2)).length < mw) = false :=
                  decide_eq_false hnw
                simp only [hi, Bool.false_eq_true, if_false, List.filter_cons,
                  shortUnit, Bool.not_false, Bool.true_and, hnw, hw']
                exact ih sc none hsc
          · simp only [ha, Bool.false_eq_true, if_false]
            by_cases hi : is_ignored_question (pyStrip parts.1) = true
            · simp only [hi, if_true, List.filter_cons, shortUnit, Bool.not_true,
                Bool.false_and, Bool.false_eq_true, if_false]
              exact ih sc pending hsc
            · rw [Bool.not_eq_true] at hi
              rcases Nat.lt_or_ge (pyWords (pyStrip parts.2)).length mw with hw | hw
              · have hw' : decide ((pyWords (pyStrip parts.2)).length < mw) = true :=
                  decide_eq_true hw
                simp only [hi, Bool.false_eq_true, if_false, List.filter_cons,
                  shortUnit, Bool.not_false, Bool.true_and, hw',
                  eq_self_iff_true, if_true, List.length_cons]
                simp only [hw, if_true]
                by_cases hs2 : 2 ≤ sc + 1
                · simp only [hs2, if_true]
                  exact iff_of_true (by trivial) (by omega)
                · simp only [hs2, if_false]
                  rw [ih (sc + 1) pending (by omega)]
                  omega
              · have hnw : ¬((pyWords (pyStrip parts.2)).length < mw) := by omega
                have hw' : decide ((pyWords (pyStrip parts.2)).length < mw) = false :=
                  decide_eq_false hnw
                simp only [hi, Bool.false_eq_true, if_false, List.filter_cons,
                  shortUnit, Bool.not_false, Bool.true_and, hnw, hw']
                exact ih sc pending hsc

/-- A blob with one 25-word and one 5-word non-ignorable answer. -/
def blobOneShortC7 : String :=
  "---------- Question 1: Describe your first project\n---------- Answer 1: alpha beta gamma delta epsilon zeta eta theta iota kappa lamda mu nu xi omicron pi rho sigma tau upsilon phi chi psi omega extra\n---------- Question 2: Describe your second project\n---------- Answer 2: one two three four five"

/-- A blob with two 5-word non-ignorable answers. -/
def blobTwoShortC7 : String :=
  "---------- Question 1: Describe your first project\n---------- Answer 1: just a few short words\n---------- Question 2: Describe your second project\n---------- Answer 2: one two three four five"

set_option maxRecDepth 8000 in
/-- Claim C7: `has_two_or_more_short_answers(blob, min_words=20)` is true
iff, iterating the blob's question/answer units in blob order and
skipping units whose question is ignorable, at least two answers have
fewer than 20 whitespace-delimited tokens; in particular a blob with one
25-word and one 5-word non-ignorable answer yields `false` and one with
two 5-word non-ignorable answers yields `true`.  (The early exit at the
second short answer is an implementation detail of the same value.) -/
theorem C7_two_short_answers (blob : String) :
    (has_two_or_more_short_answers blob 20 = true ↔
      2 ≤ countShortAnswers blob 20) ∧
    has_two_or_more_short_answers blobOneShortC7 20 = false ∧
    has_two_or_more_short_answers blobTwoShortC7 20 = true := by
  refine ⟨?_, by decide, by decide⟩
  have h := hasTwoAux_iff 20 (splitOnStr blob "----------") 0 none (by omega)
  unfold has_two_or_more_short_answers countShortAnswers
  rw [h]
  omega

/-! ## Claim C6: disallowed-employer detection -/

lemma phrase_in_tokens_iff (ph tk : List String) :
    phrase_in_tokens ph tk = true ↔
      ph ≠ [] ∧ ∃ i, (tk.drop i).take ph.length = ph := by
  unfold phrase_in_tokens
  dsimp only
  by_cases h0 : ph.length = 0
  · rw [if_pos h0]
    simp [List.length_eq_zero.mp h0]
  · rw [if_neg h0]
    rw [List.any_eq_true]
    constructor
    · rintro ⟨i, _, hslice⟩
      exact ⟨fun hph => h0 (by rw [hph]; rfl), i, by
        rwa [beq_iff_eq] at hslice⟩
    · rintro ⟨hph, i, hslice⟩
      have hlen : ((tk.drop i).take ph.length).length = ph.length := by
        rw [hslice]
      rw [List.length_take, List.length_drop] at hlen
      refine ⟨i, List.mem_range.mpr (by omega), by rw [beq_iff_eq]; exact hslice⟩

/-- Claim C6 (amended): the two detection strategies are mutually
exclusive — when `parse_experiences_lines` extracts at least one
employer name the applicant is rejected iff some parsed name is an exact
(case-sensitive) element of the disallowed list, and only when no name
is parsed does the gate fall back to the resume text, rejecting iff at
least two distinct disallowed phrases match; a phrase matches iff its
lowercased `\w+` token sequence (alphanumeric-or-underscore runs, not
pure alphanumeric runs) occurs contiguously in the lowercased `\w+`
token sequence of the resume text. -/
theorem C6_unallowed_gate :
    (∀ (e t : String) (u : List String),
      unallowedGateRejects e t u = true ↔
        (if parse_experiences_lines e = [] then
          2 ≤ ((u.filter (fun p =>
            phrase_in_tokens (tokenize_to_words (myLower p))
              (tokenize_to_words (myLower t)))).dedup.length)
        else ∃ c ∈ parse_experiences_lines e, c ∈ u)) ∧
    ∀ (ph tk : List String),
      phrase_in_tokens ph tk = true ↔
        ph ≠ [] ∧ ∃ i, (tk.drop i).take ph.length = ph := by
  constructor
  · intro e t u
    unfold unallowedGateRejects count_unallowed_matches
    dsimp only
    by_cases hempty : parse_experiences_lines e = []
    · rw [if_pos (by rw [hempty]; rfl), if_pos hempty]
      rw [decide_eq_true_iff]
    · rw [if_neg (by
        intro hc
        exact hempty (List.isEmpty_iff.mp hc)), if_neg hempty]
      rw [List.any_eq_true]
      constructor
      · rintro ⟨c, hc, helem⟩
        exact ⟨c, hc, (List.elem_iff).mp helem⟩
      · rintro ⟨c, hc, hmem⟩
        exact ⟨c, hc, (List.elem_iff).mpr hmem⟩
  · exact phrase_in_tokens_iff

/-- Helper of `specAlnumTokens`: accumulate the current (reversed) run
of alphanumeric characters. -/
def specAlnumTokensAux : List Char → List Char → List String
  | [], acc => if acc.isEmpty then [] else [⟨acc.reverse⟩]
  | c :: cs, acc =>
    if c.isAlphanum then specAlnumTokensAux cs (c :: acc)
    else if acc.isEmpty then specAlnumTokensAux cs []
    else ⟨acc.reverse⟩ :: specAlnumTokensAux cs []

/-- Following the spec's words for comparison with the source: word
tokens as maximal alphanumeric runs (the source's `tokenize_to_words`
uses `\w+`, which additionally includes the underscore). -/
def specAlnumTokens (text : String) : List String :=
  specAlnumTokensAux text.data []

/-- The number of distinct disallowed phrases found in the resume text
under the spec's alphanumeric-run tokenizer. -/
def specDistinctMatchCount (t : String) (u : List String) : Nat :=
  (u.filter (fun p =>
    phrase_in_tokens (specAlnumTokens (myLower p)) (specAlnumTokens (myLower t)))).dedup.length

/-- Resume text of the C6 counterexample run. -/
def resumeC6 : String :=
  "I spent years working at Acme_Corp and then joined Globex as an engineer"

/-- Environment of the C6 counterexample run. -/
def envC6 : Env :=
  ⟨fun _ => true, fun _ => resumeC6, fun _ => "", fun _ => some "en",
    fun _ => ["w"], fun _ _ _ => true, ["Acme Corp", "Globex"]⟩

/-- Input table of the C6 counterexample run (no parsable employer). -/
def dfC6 : DataFrame :=
  ⟨[("download", ["r.pdf"]), ("experience", [""])], 1⟩

set_option maxRecDepth 8000 in
/-- Claim C6 counterexample: with no parsed employer name, two distinct
disallowed phrases occur as contiguous case-insensitive subsequences of
the resume's alphanumeric-run token sequence (as the claim words it),
yet the pipeline does not reject the applicant at the
disallowed-employer stage: the source tokenizes with `\w+`, so
`Acme_Corp` is a single token and only `Globex` matches. -/
theorem C6_counterexample :
    parse_experiences_lines "" = [] ∧
    specDistinctMatchCount resumeC6 ["Acme Corp", "Globex"] = 2 ∧
    (count_unallowed_matches resumeC6 ["Acme Corp", "Globex"]).1 = 1 ∧
    (process_applicants envC6 dfC6 "folder" false false "" "" "x" true).no_unallowed_count = 1 := by
  refine ⟨by decide, by decide, by decide, by decide⟩

/-! ## Claim C9: independence from answers content under `exclude_answers`

Two input tables that agree outside their answers-content columns (the
`answers` column and the dynamic question/answer columns, as the
normalizer classifies them) lead, with `exclude_answers = true`, to the
same gate decisions, the same counters and corresponding results. -/

/-- A canonical column name that is answers content: a dynamic
question/answer column or the `answers` column itself. -/
def qaOrAnswersName (n : String) : Bool :=
  isQuestionName n || isAnswerName n || n == "answers"

/-- A raw column name that the normalizer turns into answers content:
after stripping and the rename steps it is a question/answer column or
the `answers` column. -/
def answersContentName (n : String) : Bool :=
  qaOrAnswersName (applyAnswersRename (applyResumeRename (applyRenameMap (pyStrip n))))

/-- Two column lists with equal names whose values agree wherever the
name does not satisfy `P`. -/
def colsAgreeExcept (P : String → Bool) :
    List (String × List String) → List (String × List String) → Bool
  | [], [] => true
  | a :: xs, b :: ys =>
    (a.1 == b.1) && (P a.1 || a.2 == b.2) && colsAgreeExcept P xs ys
  | _, _ => false

/-- Two rows with equal keys whose values agree wherever the key does
not satisfy `P`. -/
def rowAgreeExcept (P : String → Bool) :
    List (String × String) → List (String × String) → Bool
  | [], [] => true
  | a :: xs, b :: ys =>
    (a.1 == b.1) && (P a.1 || a.2 == b.2) && rowAgreeExcept P xs ys
  | _, _ => false

/-- Corresponding result rows: equal diagnostics, and base rows agreeing
outside `P`. -/
def resultsAgree (P : String → Bool) : List ResultRow → List ResultRow → Bool
  | [], [] => true
  | r :: rs, s :: ss =>
    rowAgreeExcept P r.row s.row && (r.found_symbols == s.found_symbols) &&
      (r.found_required == s.found_required) &&
      (r.found_optional == s.found_optional) && resultsAgree P rs ss
  | _, _ => false

lemma colsAgree_names (P : String → Bool) :
    ∀ {c1 c2}, colsAgreeExcept P c1 c2 = true → namesOf c1 = namesOf c2 := by
  intro c1
  induction c1 with
  | nil =>
    intro c2 h
    cases c2 with
    | nil => rfl
    | cons b ys => exact Bool.noConfusion h
  | cons a xs ih =>
    intro c2 h
    cases c2 with
    | nil => exact Bool.noConfusion h
    | cons b ys =>
      simp only [colsAgreeExcept, Bool.and_eq_true, beq_iff_eq] at h
      simp only [namesOf, List.map_cons, h.1.1]
      have := ih h.2
      simp only [namesOf] at this
      rw [this]

lemma colsAgree_map (P : String → Bool) (f : String → String) :
    ∀ {c1 c2}, colsAgreeExcept (fun n => P (f n)) c1 c2 = true →
      colsAgreeExcept P (c1.map (fun c => (f c.1, c.2)))
        (c2.map (fun c => (f c.1, c.2))) = true := by
  intro c1
  induction c1 with
  | nil =>
    intro c2 h
    cases c2 with
    | nil => rfl
    | cons b ys => exact Bool.noConfusion h
  | cons a xs ih =>
    intro c2 h
    cases c2 with
    | nil => exact Bool.noConfusion h
    | cons b ys =>
      simp only [colsAgreeExcept, Bool.and_eq_true, beq_iff_eq] at h
      obtain ⟨⟨hn, hv⟩, hrest⟩ := h
      simp only [List.map_cons, colsAgreeExcept, Bool.and_eq_true, beq_iff_eq]
      rw [hn] at hv
      refine ⟨⟨by rw [hn], ?_⟩, ih hrest⟩
      rw [hn]
      exact hv

lemma colsAgree_append_eq (P : String → Bool) (a : String × List String) :
    ∀ {c1 c2}, colsAgreeExcept P c1 c2 = true →
      colsAgreeExcept P (c1 ++ [a]) (c2 ++ [a]) = true := by
  intro c1
  induction c1 with
  | nil =>
    intro c2 h
    cases c2 with
    | nil => simp [colsAgreeExcept]
    | cons b ys => exact Bool.noConfusion h
  | cons x xs ih =>
    intro c2 h
    cases c2 with
    | nil => exact Bool.noConfusion h
    | cons b ys =>
      simp only [colsAgreeExcept, Bool.and_eq_true] at h
      simp only [List.cons_append, colsAgreeExcept, Bool.and_eq_true]
      exact ⟨h.1, ih h.2⟩

lemma colsAgree_filter (P : String → Bool) (q : String → Bool) :
    ∀ {c1 c2}, colsAgreeExcept P c1 c2 = true →
      colsAgreeExcept P (c1.filter (fun c => q c.1))
        (c2.filter (fun c => q c.1)) = true := by
  intro c1
  induction c1 with
  | nil =>
    intro c2 h
    cases c2 with
    | nil => rfl
    | cons b ys => exact Bool.noConfusion h
  | cons a xs ih =>
    intro c2 h
    cases c2 with
    | nil => exact Bool.noConfusion h
    | cons b ys =>
      simp only [colsAgreeExcept, Bool.and_eq_true, beq_iff_eq] at h
      simp only [List.filter_cons]
      rw [← h.1.1]
      by_cases hq : q a.1 = true
      · simp only [hq, if_true, colsAgreeExcept, Bool.and_eq_true, beq_iff_eq]
        exact ⟨h.1, ih h.2⟩
      · simp only [hq, Bool.false_eq_true, if_false]
        exact ih h.2

lemma colsAgree_set_left (P : String → Bool) (nm : String) (i : Nat) (v : String)
    (hP : P nm = true) :
    ∀ {c1 c2}, colsAgreeExcept P c1 c2 = true →
      colsAgreeExcept P (setCellAt c1 nm i v) c2 = true := by
  intro c1
  induction c1 with
  | nil =>
    intro c2 h
    cases c2 with
    | nil => rfl
    | cons b ys => exact Bool.noConfusion h
  | cons a xs ih =>
    intro c2 h
    cases c2 with
    | nil => exact Bool.noConfusion h
    | cons b ys =>
      simp only [colsAgreeExcept, Bool.and_eq_true, beq_iff_eq] at h
      by_cases heq : a.1 = nm
      · show colsAgreeExcept P (if a.1 = nm then (a.1, a.2.set i v) :: xs
          else a :: setCellAt xs nm i v) (b :: ys) = true
        rw [if_pos heq]
        simp only [colsAgreeExcept, Bool.and_eq_true, beq_iff_eq]
        refine ⟨⟨h.1.1, ?_⟩, h.2⟩
        rw [heq, hP]
        simp
      · show colsAgreeExcept P (if a.1 = nm then (a.1, a.2.set i v) :: xs
          else a :: setCellAt xs nm i v) (b :: ys) = true
        rw [if_neg heq]
        simp only [colsAgreeExcept, Bool.and_eq_true, beq_iff_eq]
        exact ⟨h.1, ih h.2⟩

lemma colsAgree_set_right (P : String → Bool) (nm : String) (i : Nat) (v : String)
    (hP : P nm = true) :
    ∀ {c1 c2}, colsAgreeExcept P c1 c2 = true →
      colsAgreeExcept P c1 (setCellAt c2 nm i v) = true := by
  intro c1
  induction c1 with
  | nil =>
    intro c2 h
    cases c2 with
    | nil => rfl
    | cons b ys => exact Bool.noConfusion h
  | cons a xs ih =>
    intro c2 h
    cases c2 with
    | nil => exact Bool.noConfusion h
    | cons b ys =>
      simp only [colsAgreeExcept, Bool.and_eq_true, beq_iff_eq] at h
      by_cases heq : b.1 = nm
      · show colsAgreeExcept P (a :: xs) (if b.1 = nm then (b.1, b.2.set i v) :: ys
          else b :: setCellAt ys nm i v) = true
        rw [if_pos heq]
        simp only [colsAgreeExcept, Bool.and_eq_true, beq_iff_eq]
        refine ⟨⟨h.1.1, ?_⟩, h.2⟩
        rw [h.1.1, heq, hP]
        simp
      · show colsAgreeExcept P (a :: xs) (if b.1 = nm then (b.1, b.2.set i v) :: ys
          else b :: setCellAt ys nm i v) = true
        rw [if_neg heq]
        simp only [colsAgreeExcept, Bool.and_eq_true, beq_iff_eq]
        exact ⟨h.1, ih h.2⟩

lemma rowAgree_of_colsAgree (P : String → Bool) (i : Nat) :
    ∀ {c1 c2}, colsAgreeExcept P c1 c2 = true →
      rowAgreeExcept P (c1.map (fun c => (c.1, c.2.getD i "")))
        (c2.map (fun c => (c.1, c.2.getD i ""))) = true := by
  intro c1
  induction c1 with
  | nil =>
    intro c2 h
    cases c2 with
    | nil => rfl
    | cons b ys => exact Bool.noConfusion h
  | cons a xs ih =>
    intro c2 h
    cases c2 with
    | nil => exact Bool.noConfusion h
    | cons b ys =>
      simp only [colsAgreeExcept, Bool.and_eq_true, beq_iff_eq] at h
      simp only [List.map_cons, rowAgreeExcept, Bool.and_eq_true, beq_iff_eq]
      refine ⟨⟨h.1.1, ?_⟩, ih h.2⟩
      rcases Bool.or_eq_true _ _ |>.mp h.1.2 with hp | hv
      · exact Bool.or_eq_true _ _ |>.mpr (Or.inl hp)
      · refine Bool.or_eq_true _ _ |>.mpr (Or.inr ?_)
        rw [beq_iff_eq] at hv ⊢
        rw [hv]

lemma lookup_agree (P : String → Bool) (k : String) (hk : P k = false) :
    ∀ {r1 r2}, rowAgreeExcept P r1 r2 = true →
      List.lookup k r1 = List.lookup k r2 := by
  intro r1
  induction r1 with
  | nil =>
    intro r2 h
    cases r2 with
    | nil => rfl
    | cons b ys => exact Bool.noConfusion h
  | cons a xs ih =>
    intro r2 h
    cases r2 with
    | nil => exact Bool.noConfusion h
    | cons b ys =>
      simp only [rowAgreeExcept, Bool.and_eq_true, beq_iff_eq] at h
      simp only [List.lookup, ← h.1.1]
      by_cases heq : (k == a.1) = true
      · simp only [heq, if_true]
        rcases Bool.or_eq_true _ _ |>.mp h.1.2 with hp | hv
        · rw [beq_iff_eq] at heq
          rw [heq] at hk
          rw [hk] at hp
          exact Bool.noConfusion hp
        · rw [beq_iff_eq] at hv
          rw [hv]
      · simp only [heq, Bool.false_eq_true, if_false]
        exact ih h.2

lemma resultsAgree_append (P : String → Bool) (r1 r2 : ResultRow)
    (hrow : rowAgreeExcept P r1.row r2.row = true)
    (hsy : r1.found_symbols = r2.found_symbols)
    (hrq : r1.found_required = r2.found_required)
    (hro : r1.found_optional = r2.found_optional) :
    ∀ {rs ss}, resultsAgree P rs ss = true →
      resultsAgree P (rs ++ [r1]) (ss ++ [r2]) = true := by
  intro rs
  induction rs with
  | nil =>
    intro ss h
    cases ss with
    | nil => simp [resultsAgree, hrow, hsy, hrq, hro]
    | cons b ys => exact Bool.noConfusion h
  | cons x xs ih =>
    intro ss h
    cases ss with
    | nil => exact Bool.noConfusion h
    | cons b ys =>
      simp only [resultsAgree, Bool.and_eq_true] at h
      simp only [List.cons_append, resultsAgree, Bool.and_eq_true]
      exact ⟨h.1, ih h.2⟩

lemma mem_insSorted (key : String → Nat) (x y : String) :
    ∀ l, y ∈ insSorted key x l ↔ y = x ∨ y ∈ l := by
  intro l
  induction l with
  | nil => simp [insSorted]
  | cons z zs ih =>
    simp only [insSorted]
    by_cases h : key z ≤ key x
    · simp only [h, if_true, List.mem_cons, ih]
      tauto
    · simp only [h, if_false, List.mem_cons]

lemma mem_sortByKey (key : String → Nat) (y : String) (l : List String) :
    y ∈ sortByKey key l ↔ y ∈ l := by
  unfold sortByKey
  suffices h : ∀ (l acc : List String),
      (y ∈ l.foldl (fun acc x => insSorted key x acc) acc ↔ y ∈ acc ∨ y ∈ l) by
    rw [h l []]
    simp
  intro l
  induction l with
  | nil => simp
  | cons z zs ih =>
    intro acc
    rw [List.foldl_cons, ih (insSorted key z acc), mem_insSorted]
    simp only [List.mem_cons]
    tauto

lemma colsAgree_mono (P Q : String → Bool) :
    ∀ {c1 c2}, (∀ n ∈ namesOf c1, P n = true → Q n = true) →
      colsAgreeExcept P c1 c2 = true → colsAgreeExcept Q c1 c2 = true := by
  intro c1
  induction c1 with
  | nil =>
    intro c2 _ h
    cases c2 with
    | nil => rfl
    | cons b ys => exact Bool.noConfusion h
  | cons a xs ih =>
    intro c2 himp h
    cases c2 with
    | nil => exact Bool.noConfusion h
    | cons b ys =>
      simp only [colsAgreeExcept, Bool.and_eq_true, beq_iff_eq] at h ⊢
      refine ⟨⟨h.1.1, ?_⟩, ih (fun n hm => himp n (by
        simp only [namesOf, List.map_cons, List.mem_cons]
        exact Or.inr hm)) h.2⟩
      rcases Bool.or_eq_true _ _ |>.mp h.1.2 with hp | hv
      · refine Bool.or_eq_true _ _ |>.mpr (Or.inl (himp a.1 ?_ hp))
        simp [namesOf]
      · exact Bool.or_eq_true _ _ |>.mpr (Or.inr hv)

lemma setCellAt_names (nm : String) (i : Nat) (v : String) :
    ∀ cols, namesOf (setCellAt cols nm i v) = namesOf cols := by
  intro cols
  induction cols with
  | nil => rfl
  | cons a xs ih =>
    simp only [setCellAt]
    by_cases heq : a.1 = nm
    · rw [if_pos heq]
      simp [namesOf]
    · rw [if_neg heq]
      exact congrArg (List.cons a.1) ih

lemma foldl_names_invariant
    (step : List (String × List String) → Nat → List (String × List String))
    (hstep : ∀ cols i, namesOf (step cols i) = namesOf cols) :
    ∀ (idxs : List Nat) cols, namesOf (idxs.foldl step cols) = namesOf cols
  | [], _ => rfl
  | i :: is, cols => by
    rw [List.foldl_cons,
      foldl_names_invariant step hstep is (step cols i), hstep]

lemma mergeQA_names (df : DataFrame) (q a : List String) :
    namesOf (mergeQA df q a).cols = namesOf df.cols := by
  unfold mergeQA
  dsimp only
  apply foldl_names_invariant
  intro cols i
  by_cases h1 : combinedQA q a cols i = ""
  · rw [if_pos h1]
  · rw [if_neg h1]
    exact setCellAt_names "answers" i _ cols

lemma ensureCol_names_mem (df : DataFrame) (nm n : String)
    (h : n ∈ colNames (ensureCol df nm)) : n ∈ colNames df ∨ n = nm := by
  unfold ensureCol at h
  by_cases hc : nm ∈ colNames df
  · rw [if_pos hc] at h
    exact Or.inl h
  · rw [if_neg hc] at h
    unfold colNames namesOf at h ⊢
    simp only [List.map_append, List.mem_append, List.map_cons, List.map_nil,
      List.mem_singleton] at h
    rcases h with h | h
    · exact Or.inl h
    · exact Or.inr h

lemma namesOf_filter_mem (p : String → Bool) (n : String) :
    ∀ cols, n ∈ namesOf (cols.filter (fun c => p c.1)) →
      n ∈ namesOf cols ∧ p n = true := by
  intro cols
  induction cols with
  | nil => intro h; cases h
  | cons a xs ih =>
    intro h
    simp only [List.filter_cons] at h
    by_cases hp : p a.1 = true
    · rw [if_pos hp] at h
      simp only [namesOf, List.map_cons, List.mem_cons] at h ⊢
      rcases h with h | h
      · exact ⟨Or.inl h, h ▸ hp⟩
      · have := ih h
        exact ⟨Or.inr this.1, this.2⟩
    · rw [if_neg hp] at h
      have := ih h
      simp only [namesOf, List.map_cons, List.mem_cons]
      exact ⟨Or.inr this.1, this.2⟩

lemma ensureCol_agree (P : String → Bool) (nm : String) (df1 df2 : DataFrame)
    (hn : df1.nrows = df2.nrows)
    (h : colsAgreeExcept P df1.cols df2.cols = true) :
    colsAgreeExcept P (ensureCol df1 nm).cols (ensureCol df2 nm).cols = true ∧
    (ensureCol df1 nm).nrows = (ensureCol df2 nm).nrows := by
  have hne := colsAgree_names P h
  unfold ensureCol
  by_cases hid : nm ∈ colNames df1
  · have hid2 : nm ∈ colNames df2 := by
      unfold colNames at *
      rw [← hne]
      exact hid
    rw [if_pos hid, if_pos hid2]
    exact ⟨h, hn⟩
  · have hid2 : nm ∉ colNames df2 := by
      unfold colNames at *
      rw [← hne]
      exact hid
    rw [if_neg hid, if_neg hid2]
    dsimp only
    rw [← hn]
    exact ⟨colsAgree_append_eq P (nm, List.replicate df1.nrows "") h, rfl⟩

lemma foldl_agree_invariant (P : String → Bool)
    (step1 step2 : List (String × List String) → Nat → List (String × List String))
    (hstep : ∀ c1 c2 i, colsAgreeExcept P c1 c2 = true →
      colsAgreeExcept P (step1 c1 i) (step2 c2 i) = true) :
    ∀ (idxs : List Nat) c1 c2, colsAgreeExcept P c1 c2 = true →
      colsAgreeExcept P (idxs.foldl step1 c1) (idxs.foldl step2 c2) = true
  | [], _, _, h => h
  | i :: is, c1, c2, h => by
    rw [List.foldl_cons, List.foldl_cons]
    exact foldl_agree_invariant P step1 step2 hstep is _ _ (hstep c1 c2 i h)

lemma mergeQA_agree (P : String → Bool) (hP : P "answers" = true)
    (q1 a1 q2 a2 : List String) (df1 df2 : DataFrame)
    (hn : df1.nrows = df2.nrows)
    (h : colsAgreeExcept P df1.cols df2.cols = true) :
    colsAgreeExcept P (mergeQA df1 q1 a1).cols (mergeQA df2 q2 a2).cols = true := by
  unfold mergeQA
  dsimp only
  rw [← hn]
  apply foldl_agree_invariant P _ _ ?_ _ df1.cols df2.cols h
  intro c1 c2 i hcc
  dsimp only
  by_cases h1 : combinedQA q1 a1 c1 i = ""
  · rw [if_pos h1]
    by_cases h2 : combinedQA q2 a2 c2 i = ""
    · rw [if_pos h2]
      exact hcc
    · rw [if_neg h2]
      exact colsAgree_set_right P "answers" i _ hP hcc
  · rw [if_neg h1]
    by_cases h2 : combinedQA q2 a2 c2 i = ""
    · rw [if_pos h2]
      exact colsAgree_set_left P "answers" i _ hP hcc
    · rw [if_neg h2]
      exact colsAgree_set_left P "answers" i _ hP
        (colsAgree_set_right P "answers" i _ hP hcc)

lemma ensureCol_nrows (df : DataFrame) (nm : String) :
    (ensureCol df nm).nrows = df.nrows := by
  unfold ensureCol
  split <;> rfl

/-- All steps of `normalize_dataframe` preserve the row count. -/
lemma normalize_nrows (df : DataFrame) :
    (normalize_dataframe df).nrows = df.nrows := by
  show (ensureCol (renameCols applyAnswersRename (renameCols applyResumeRename
    (renameCols applyRenameMap (ensureCol (stripColNames df) "id")))) "answers").nrows = df.nrows
  rw [ensureCol_nrows]
  show (ensureCol (stripColNames df) "id").nrows = df.nrows
  rw [ensureCol_nrows]
  rfl

lemma normalize_tail_agree (E1 E2 : DataFrame)
    (hn : E1.nrows = E2.nrows)
    (h : colsAgreeExcept qaOrAnswersName E1.cols E2.cols = true) :
    colsAgreeExcept (fun n => n == "answers")
      ((mergeQA (ensureCol E1 "answers")
          (sortByKey extract_number ((colNames E1).filter isQuestionName))
          (sortByKey extract_number ((colNames E1).filter isAnswerName))).cols.filter
        (fun c => !(sortByKey extract_number ((colNames E1).filter isQuestionName) ++
            sortByKey extract_number ((colNames E1).filter isAnswerName)).contains c.1))
      ((mergeQA (ensureCol E2 "answers")
          (sortByKey extract_number ((colNames E2).filter isQuestionName))
          (sortByKey extract_number ((colNames E2).filter isAnswerName))).cols.filter
        (fun c => !(sortByKey extract_number ((colNames E2).filter isQuestionName) ++
            sortByKey extract_number ((colNames E2).filter isAnswerName)).contains c.1)) =
      true := by
  have hne : colNames E1 = colNames E2 := colsAgree_names _ h
  have hQ : sortByKey extract_number ((colNames E2).filter isQuestionName) =
      sortByKey extract_number ((colNames E1).filter isQuestionName) := by rw [hne]
  have hA : sortByKey extract_number ((colNames E2).filter isAnswerName) =
      sortByKey extract_number ((colNames E1).filter isAnswerName) := by rw [hne]
  rw [hQ, hA]
  obtain ⟨h6, hn6⟩ := ensureCol_agree qaOrAnswersName "answers" E1 E2 hn h
  have h7 := mergeQA_agree qaOrAnswersName (by decide)
    (sortByKey extract_number ((colNames E1).filter isQuestionName))
    (sortByKey extract_number ((colNames E1).filter isAnswerName))
    (sortByKey extract_number ((colNames E1).filter isQuestionName))
    (sortByKey extract_number ((colNames E1).filter isAnswerName))
    _ _ hn6 h6
  refine colsAgree_mono qaOrAnswersName _ ?_
    (colsAgree_filter qaOrAnswersName
      (fun n => !(sortByKey extract_number ((colNames E1).filter isQuestionName) ++
          sortByKey extract_number ((colNames E1).filter isAnswerName)).contains n) h7)
  intro n hnmem hqa
  obtain ⟨hmem, hkeep⟩ := namesOf_filter_mem
    (fun n => !(sortByKey extract_number ((colNames E1).filter isQuestionName) ++
        sortByKey extract_number ((colNames E1).filter isAnswerName)).contains n) n
    (mergeQA (ensureCol E1 "answers")
      (sortByKey extract_number ((colNames E1).filter isQuestionName))
      (sortByKey extract_number ((colNames E1).filter isAnswerName))).cols hnmem
  have hmem' : n ∈ colNames (ensureCol E1 "answers") := by
    unfold colNames
    rw [← mergeQA_names (ensureCol E1 "answers")
      (sortByKey extract_number ((colNames E1).filter isQuestionName))
      (sortByKey extract_number ((colNames E1).filter isAnswerName))]
    exact hmem
  rcases ensureCol_names_mem _ "answers" n hmem' with hm | hm
  · unfold qaOrAnswersName at hqa
    rcases Bool.or_eq_true _ _ |>.mp hqa with hqa1 | hbeq
    · rcases Bool.or_eq_true _ _ |>.mp hqa1 with hisQ | hisA
      · exfalso
        have hinQ : n ∈ sortByKey extract_number ((colNames E1).filter isQuestionName) :=
          (mem_sortByKey _ _ _).mpr (List.mem_filter.mpr ⟨hm, hisQ⟩)
        have : (sortByKey extract_number ((colNames E1).filter isQuestionName) ++
            sortByKey extract_number ((colNames E1).filter isAnswerName)).contains n = true :=
          List.elem_iff.mpr (List.mem_append.mpr (Or.inl hinQ))
        rw [this] at hkeep
        exact Bool.noConfusion hkeep
      · exfalso
        have hinA : n ∈ sortByKey extract_number ((colNames E1).filter isAnswerName) :=
          (mem_sortByKey _ _ _).mpr (List.mem_filter.mpr ⟨hm, hisA⟩)
        have : (sortByKey extract_number ((colNames E1).filter isQuestionName) ++
            sortByKey extract_number ((colNames E1).filter isAnswerName)).contains n = true :=
          List.elem_iff.mpr (List.mem_append.mpr (Or.inr hinA))
        rw [this] at hkeep
        exact Bool.noConfusion hkeep
    · exact hbeq
  · rw [hm]
    rfl

/-- Two raw tables that agree outside their answers-content columns
normalize to tables with the same row count that agree outside the
`answers` column. -/
lemma normalize_dataframe_agree (df1 df2 : DataFrame)
    (hn : df1.nrows = df2.nrows)
    (h : colsAgreeExcept answersContentName df1.cols df2.cols = true) :
    (normalize_dataframe df1).nrows = (normalize_dataframe df2).nrows ∧
    colsAgreeExcept (fun n => n == "answers") (normalize_dataframe df1).cols
      (normalize_dataframe df2).cols = true := by
  constructor
  · rw [normalize_nrows, normalize_nrows, hn]
  · have h1 : colsAgreeExcept
        (fun m => qaOrAnswersName (applyAnswersRename (applyResumeRename (applyRenameMap m))))
        (stripColNames df1).cols (stripColNames df2).cols = true :=
      colsAgree_map _ pyStrip h
    obtain ⟨h2, hn2⟩ := ensureCol_agree _ "id" (stripColNames df1) (stripColNames df2) hn h1
    have h3 := colsAgree_map
      (fun m => qaOrAnswersName (applyAnswersRename (applyResumeRename m))) applyRenameMap h2
    have h4 := colsAgree_map (fun m => qaOrAnswersName (applyAnswersRename m)) applyResumeRename h3
    have h5 := colsAgree_map qaOrAnswersName applyAnswersRename h4
    exact normalize_tail_agree
      (renameCols applyAnswersRename (renameCols applyResumeRename
        (renameCols applyRenameMap (ensureCol (stripColNames df1) "id"))))
      (renameCols applyAnswersRename (renameCols applyResumeRename
        (renameCols applyRenameMap (ensureCol (stripColNames df2) "id"))))
      hn2 h5

/-- Two pipeline states with equal counters and corresponding results
(equal diagnostics, base rows agreeing outside `answers`). -/
def StateRel (st1 st2 : PipeState) : Prop :=
  st1.pdf_exists_count = st2.pdf_exists_count ∧
  st1.english_count = st2.english_count ∧
  st1.short_answers_okay_count = st2.short_answers_okay_count ∧
  st1.no_unallowed_count = st2.no_unallowed_count ∧
  st1.keywords_count = st2.keywords_count ∧
  st1.final_pass_count = st2.final_pass_count ∧
  resultsAgree (fun n => n == "answers") st1.results st2.results = true

/-- Lockstep run of the abstract gate tree: equal gate booleans drive two
related states to related states. -/
lemma gateTreeRel (g1 g2 g3 g4 g5 g6 g7 : Bool) (st1 st2 : PipeState)
    (rr1 rr2 : ResultRow) (hst : StateRel st1 st2)
    (hrow : rowAgreeExcept (fun n => n == "answers") rr1.row rr2.row = true)
    (hsy : rr1.found_symbols = rr2.found_symbols)
    (hrq : rr1.found_required = rr2.found_required)
    (hro : rr1.found_optional = rr2.found_optional) :
    StateRel
      (if g1 then st1
       else if g2 then { st1 with english_count := st1.english_count + 1 }
       else if g3 then
         { st1 with english_count := st1.english_count + 1,
                    short_answers_okay_count := st1.short_answers_okay_count + 1 }
       else if g4 then
         { st1 with english_count := st1.english_count + 1,
                    short_answers_okay_count := st1.short_answers_okay_count + 1,
                    no_unallowed_count := st1.no_unallowed_count + 1 }
       else if g5 then
         { st1 with english_count := st1.english_count + 1,
                    short_answers_okay_count := st1.short_answers_okay_count + 1,
                    no_unallowed_count := st1.no_unallowed_count + 1 }
       else if g6 then
         { st1 with english_count := st1.english_count + 1,
                    short_answers_okay_count := st1.short_answers_okay_count + 1,
                    no_unallowed_count := st1.no_unallowed_count + 1 }
       else if g7 then
         { st1 with english_count := st1.english_count + 1,
                    short_answers_okay_count := st1.short_answers_okay_count + 1,
                    no_unallowed_count := st1.no_unallowed_count + 1 }
       else
         { st1 with english_count := st1.english_count + 1,
                    short_answers_okay_count := st1.short_answers_okay_count + 1,
                    no_unallowed_count := st1.no_unallowed_count + 1,
                    keywords_count := st1.keywords_count + 1,
                    final_pass_count := st1.final_pass_count + 1,
                    results := st1.results ++ [rr1] })
      (if g1 then st2
       else if g2 then { st2 with english_count := st2.english_count + 1 }
       else if g3 then
         { st2 with english_count := st2.english_count + 1,
                    short_answers_okay_count := st2.short_answers_okay_count + 1 }
       else if g4 then
         { st2 with english_count := st2.english_count + 1,
                    short_answers_okay_count := st2.short_answers_okay_count + 1,
                    no_unallowed_count := st2.no_unallowed_count + 1 }
       else if g5 then
         { st2 with english_count := st2.english_count + 1,
                    short_answers_okay_count := st2.short_answers_okay_count + 1,
                    no_unallowed_count := st2.no_unallowed_count + 1 }
       else if g6 then
         { st2 with english_count := st2.english_count + 1,
                    short_answers_okay_count := st2.short_answers_okay_count + 1,
                    no_unallowed_count := st2.no_unallowed_count + 1 }
       else if g7 then
         { st2 with english_count := st2.english_count + 1,
                    short_answers_okay_count := st2.short_answers_okay_count + 1,
                    no_unallowed_count := st2.no_unallowed_count + 1 }
       else
         { st2 with english_count := st2.english_count + 1,
                    short_answers_okay_count := st2.short_answers_okay_count + 1,
                    no_unallowed_count := st2.no_unallowed_count + 1,
                    keywords_count := st2.keywords_count + 1,
                    final_pass_count := st2.final_pass_count + 1,
                    results := st2.results ++ [rr2] }) := by
  obtain ⟨h1, h2, h3, h4, h5, h6, h7⟩ := hst
  cases g1 <;> cases g2 <;> cases g3 <;> cases g4 <;> cases g5 <;> cases g6 <;>
    cases g7 <;>
    first
      | exact ⟨h1, h2, h3, h4, h5, h6, h7⟩
      | exact ⟨h1, congrArg (· + 1) h2, h3, h4, h5, h6, h7⟩
      | exact ⟨h1, congrArg (· + 1) h2, congrArg (· + 1) h3, h4, h5, h6, h7⟩
      | exact ⟨h1, congrArg (· + 1) h2, congrArg (· + 1) h3,
          congrArg (· + 1) h4, h5, h6, h7⟩
      | exact ⟨h1, congrArg (· + 1) h2, congrArg (· + 1) h3,
          congrArg (· + 1) h4, congrArg (· + 1) h5, congrArg (· + 1) h6,
          resultsAgree_append _ rr1 rr2 hrow hsy hrq hro h7⟩

/-- With `exclude_answers = true`, `evalExtracted` takes related states
and rows agreeing outside `answers` to related states. -/
lemma evalExtracted_rel (env : Env) (cd cp : Bool) (rl ol tl : List String)
    (row1 row2 : List (String × String)) (ft : String) (st1 st2 : PipeState)
    (hst : StateRel st1 st2)
    (hrow : rowAgreeExcept (fun n => n == "answers") row1 row2 = true) :
    StateRel (evalExtracted env cd cp rl ol tl true row1 ft st1)
      (evalExtracted env cd cp rl ol tl true row2 ft st2) := by
  have hexp : List.lookup "experience" row2 = List.lookup "experience" row1 :=
    (lookup_agree _ "experience" (by decide) hrow).symm
  simp only [evalExtracted, eq_self_iff_true, if_true, ne_eq, not_true, if_false]
  rw [hexp]
  exact gateTreeRel _ _ _ _ _ _ _ st1 st2 ⟨row1, _, _, _⟩ ⟨row2, _, _, _⟩
    hst hrow rfl rfl rfl

/-- With `exclude_answers = true`, a whole pipeline step preserves the
state relation for rows agreeing outside `answers`. -/
lemma processRow_rel (env : Env) (folder : String) (cd cp : Bool)
    (rl ol tl : List String) (st1 st2 : PipeState)
    (row1 row2 : List (String × String)) (hst : StateRel st1 st2)
    (hrow : rowAgreeExcept (fun n => n == "answers") row1 row2 = true) :
    StateRel (processRow env folder cd cp rl ol tl true st1 row1)
      (processRow env folder cd cp rl ol tl true st2 row2) := by
  have hdl : List.lookup "download" row2 = List.lookup "download" row1 :=
    (lookup_agree _ "download" (by decide) hrow).symm
  have hst1 : StateRel { st1 with pdf_exists_count := st1.pdf_exists_count + 1 }
      { st2 with pdf_exists_count := st2.pdf_exists_count + 1 } := by
    obtain ⟨a, b, c, d, e, f, g⟩ := hst
    exact ⟨congrArg (· + 1) a, b, c, d, e, f, g⟩
  simp only [processRow]
  rw [hdl]
  by_cases hf : (!env.isFile (pathJoin folder
      (pyStrip ((List.lookup "download" row1).getD "")))) = true
  · rw [if_pos hf, if_pos hf]
    exact hst
  · rw [if_neg hf, if_neg hf]
    by_cases hp : myLower (extOf (pathJoin folder
        (pyStrip ((List.lookup "download" row1).getD "")))) = ".pdf"
    · rw [if_pos hp, if_pos hp]
      exact evalExtracted_rel env cd cp rl ol tl row1 row2 _ _ _ hst1 hrow
    · rw [if_neg hp, if_neg hp]
      by_cases hd : myLower (extOf (pathJoin folder
          (pyStrip ((List.lookup "download" row1).getD "")))) = ".docx"
      · rw [if_pos hd, if_pos hd]
        exact evalExtracted_rel env cd cp rl ol tl row1 row2 _ _ _ hst1 hrow
      · rw [if_neg hd, if_neg hd]
        exact hst1

lemma foldl_stateRel (step : PipeState → List (String × String) → PipeState)
    (g1 g2 : Nat → List (String × String))
    (hstep : ∀ st1 st2 i, StateRel st1 st2 →
      StateRel (step st1 (g1 i)) (step st2 (g2 i))) :
    ∀ (idxs : List Nat) st1 st2, StateRel st1 st2 →
      StateRel ((idxs.map g1).foldl step st1) ((idxs.map g2).foldl step st2)
  | [], _, _, h => h
  | i :: is, st1, st2, h => by
    rw [List.map_cons, List.map_cons, List.foldl_cons, List.foldl_cons]
    exact foldl_stateRel step g1 g2 hstep is _ _ (hstep st1 st2 i h)

set_option maxHeartbeats 1000000 in
/-- Claim C9: with `exclude_answers = true`, the pipeline's per-applicant
decisions are independent of answers content.  Two runs whose raw input
tables have the same row count and agree (same column names, equal
values) outside the answers-content columns (the `answers` column and
the dynamic question/answer columns, as the normalizer classifies them)
return the same six stage counters, and their result lists correspond:
equal diagnostics and base rows agreeing outside the `answers`
column. -/
theorem C9_exclude_answers_independent (env : Env) (df1 df2 : DataFrame)
    (folder : String) (cd cp : Bool) (rt ot lt : String)
    (hn : df1.nrows = df2.nrows)
    (h : colsAgreeExcept answersContentName df1.cols df2.cols = true) :
    (process_applicants env df1 folder cd cp rt ot lt true).pdf_exists_count =
      (process_applicants env df2 folder cd cp rt ot lt true).pdf_exists_count ∧
    (process_applicants env df1 folder cd cp rt ot lt true).english_count =
      (process_applicants env df2 folder cd cp rt ot lt true).english_count ∧
    (process_applicants env df1 folder cd cp rt ot lt true).short_answers_okay_count =
      (process_applicants env df2 folder cd cp rt ot lt true).short_answers_okay_count ∧
    (process_applicants env df1 folder cd cp rt ot lt true).no_unallowed_count =
      (process_applicants env df2 folder cd cp rt ot lt true).no_unallowed_count ∧
    (process_applicants env df1 folder cd cp rt ot lt true).keywords_count =
      (process_applicants env df2 folder cd cp rt ot lt true).keywords_count ∧
    (process_applicants env df1 folder cd cp rt ot lt true).final_pass_count =
      (process_applicants env df2 folder cd cp rt ot lt true).final_pass_count ∧
    resultsAgree (fun n => n == "answers")
      (process_applicants env df1 folder cd cp rt ot lt true).results
      (process_applicants env df2 folder cd cp rt ot lt true).results = true := by
  obtain ⟨hn', hagree⟩ := normalize_dataframe_agree df1 df2 hn h
  suffices hrel : StateRel (process_applicants env df1 folder cd cp rt ot lt true)
      (process_applicants env df2 folder cd cp rt ot lt true) from hrel
  have hnames : colNames (normalize_dataframe df1) = colNames (normalize_dataframe df2) :=
    colsAgree_names _ hagree
  unfold process_applicants
  dsimp only
  by_cases hdl : "download" ∈ colNames (normalize_dataframe df1)
  · have hdl2 : "download" ∈ colNames (normalize_dataframe df2) := by
      rw [← hnames]
      exact hdl
    rw [if_pos hdl, if_pos hdl2]
    unfold rowsOf
    rw [← hn']
    refine foldl_stateRel _ _ _ ?_ _ initState initState
      ⟨rfl, rfl, rfl, rfl, rfl, rfl, rfl⟩
    intro st1 st2 i hst
    have hr := rowAgree_of_colsAgree (fun n => n == "answers") i hagree
    exact processRow_rel env folder cd cp (keywordLines rt) (keywordLines ot)
      (keywordLines lt) st1 st2 _ _ hst hr
  · have hdl2 : "download" ∉ colNames (normalize_dataframe df2) := by
      rw [← hnames]
      exact hdl
    rw [if_neg hdl, if_neg hdl2]
    exact ⟨rfl, rfl, rfl, rfl, rfl, rfl, rfl⟩

/-- Witness for C9 at concrete inputs: two one-row tables differing only
in the `answers` column produce equal counters and corresponding
results. -/
theorem C9_exclude_answers_independent_witness :
    (⟨[("download", ["r.pdf"]), ("answers", ["short answer"])], 1⟩ : DataFrame).nrows =
      (⟨[("download", ["r.pdf"]), ("answers", ["a completely different text"])], 1⟩ : DataFrame).nrows ∧
    colsAgreeExcept answersContentName
      [("download", ["r.pdf"]), ("answers", ["short answer"])]
      [("download", ["r.pdf"]), ("answers", ["a completely different text"])] = true ∧
    (process_applicants envC2 ⟨[("download", ["r.pdf"]), ("answers", ["short answer"])], 1⟩
        "folder" false false "" "" "x" true).final_pass_count =
      (process_applicants envC2 ⟨[("download", ["r.pdf"]), ("answers", ["a completely different text"])], 1⟩
        "folder" false false "" "" "x" true).final_pass_count :=
  ⟨rfl, by decide,
    (C9_exclude_answers_independent envC2
      ⟨[("download", ["r.pdf"]), ("answers", ["short answer"])], 1⟩
      ⟨[("download", ["r.pdf"]), ("answers", ["a completely different text"])], 1⟩
      "folder" false false "" "" "x" rfl (by decide)).2.2.2.2.2.1⟩

/-! ## C5: idempotence of `normalize_dataframe`

A second run of the normalizer is the identity on a first run's output:
every surviving column name is a fixpoint of stripping and of all three
rename passes and is neither a question nor an answer column, and `id`
and `answers` are present, so every stage of the second run leaves the
table unchanged. -/

lemma dropWhile_idem (p : Char → Bool) :
    ∀ l : List Char, (l.dropWhile p).dropWhile p = l.dropWhile p := by
  intro l
  induction l with
  | nil => rfl
  | cons a t ih =>
    by_cases h : p a = true
    · simp only [List.dropWhile_cons, h, if_true]
      exact ih
    · simp only [List.dropWhile_cons, h, Bool.false_eq_true, if_false]

lemma dropWhile_suffix_ex (p : Char → Bool) :
    ∀ l : List Char, ∃ t, t ++ l.dropWhile p = l := by
  intro l
  induction l with
  | nil => exact ⟨[], rfl⟩
  | cons a t ih =>
    by_cases h : p a = true
    · obtain ⟨u, hu⟩ := ih
      refine ⟨a :: u, ?_⟩
      simp only [List.dropWhile_cons, h, if_true, List.cons_append, hu]
    · exact ⟨[], by simp only [List.dropWhile_cons, h, Bool.false_eq_true, if_false, List.nil_append]⟩

lemma dropWhile_len_le (p : Char → Bool) :
    ∀ l : List Char, (l.dropWhile p).length ≤ l.length := by
  intro l
  induction l with
  | nil => exact Nat.le_refl 0
  | cons a t ih =>
    by_cases h : p a = true
    · simp only [List.dropWhile_cons, h, if_true, List.length_cons]
      exact Nat.le_succ_of_le ih
    · simp only [List.dropWhile_cons, h, Bool.false_eq_true, if_false, List.length_cons]
      exact Nat.le_refl _

lemma dropWhile_fix_of_pre (p : Char → Bool) (l₁ l₂ : List Char)
    (hp : ∃ r, l₁ ++ r = l₂) (hfix : l₂.dropWhile p = l₂) :
    l₁.dropWhile p = l₁ := by
  obtain ⟨r, hr⟩ := hp
  cases l₁ with
  | nil => rfl
  | cons a t =>
    by_cases h : p a = true
    · exfalso
      subst hr
      simp only [List.cons_append, List.dropWhile_cons, h, if_true] at hfix
      have hle := dropWhile_len_le p (t ++ r)
      rw [hfix] at hle
      simp only [List.length_cons, List.length_append] at hle
      omega
    · simp only [List.dropWhile_cons, h, Bool.false_eq_true, if_false]

lemma pyStripList_idem (cs : List Char) :
    pyStripList (pyStripList cs) = pyStripList cs := by
  unfold pyStripList
  have hinner : (cs.dropWhile isPyWs).dropWhile isPyWs = cs.dropWhile isPyWs :=
    dropWhile_idem isPyWs cs
  have hYfix :
      (((cs.dropWhile isPyWs).reverse.dropWhile isPyWs)).dropWhile isPyWs =
        ((cs.dropWhile isPyWs).reverse.dropWhile isPyWs) :=
    dropWhile_idem isPyWs (cs.dropWhile isPyWs).reverse
  have hpre : ∃ r,
      ((cs.dropWhile isPyWs).reverse.dropWhile isPyWs).reverse ++ r =
        cs.dropWhile isPyWs := by
    obtain ⟨t, ht⟩ := dropWhile_suffix_ex isPyWs (cs.dropWhile isPyWs).reverse
    refine ⟨t.reverse, ?_⟩
    have := congrArg List.reverse ht
    simpa [List.reverse_append] using this
  have hrevfix :
      (((cs.dropWhile isPyWs).reverse.dropWhile isPyWs).reverse).dropWhile isPyWs =
        ((cs.dropWhile isPyWs).reverse.dropWhile isPyWs).reverse :=
    dropWhile_fix_of_pre isPyWs _ _ hpre hinner
  rw [hrevfix, List.reverse_reverse, hYfix]

lemma pyStrip_idem (s : String) : pyStrip (pyStrip s) = pyStrip s := by
  unfold pyStrip
  exact congrArg String.mk (pyStripList_idem s.data)

/-- A column name on which every renaming stage of `normalize_dataframe`
acts as the identity. -/
def stableCore (n : String) : Bool :=
  pyStrip n == n && applyRenameMap n == n && applyResumeRename n == n &&
    applyAnswersRename n == n

/-- A column name the whole of `normalize_dataframe` leaves alone: every
stage is the identity on it and it is neither a question nor an answer
column. -/
def stableName (n : String) : Bool :=
  stableCore n && !isQuestionName n && !isAnswerName n

/-- The image of any stripped name under the three rename passes is a
fixpoint of stripping and of all three rename passes. -/
lemma chain_core (s : String) (hs : pyStrip s = s) :
    stableCore (applyAnswersRename (applyResumeRename (applyRenameMap s))) = true := by
  unfold applyRenameMap
  split
  next => decide
  next h1 =>
    split
    next => decide
    next h2 =>
      split
      next => decide
      next h3 =>
        split
        next => decide
        next h4 =>
          split
          next => decide
          next h5 =>
            unfold applyResumeRename
            split
            next => decide
            next hR =>
              unfold applyAnswersRename
              split
              next => decide
              next hA =>
                simp only [stableCore, Bool.and_eq_true, beq_iff_eq]
                refine ⟨⟨⟨hs, ?_⟩, ?_⟩, ?_⟩
                · unfold applyRenameMap
                  rw [if_neg h1, if_neg h2, if_neg h3, if_neg h4, if_neg h5]
                · unfold applyResumeRename
                  rw [if_neg hR]
                · unfold applyAnswersRename
                  rw [if_neg hA]

lemma stableName_parts (n : String) (h : stableName n = true) :
    pyStrip n = n ∧ applyRenameMap n = n ∧ applyResumeRename n = n ∧
      applyAnswersRename n = n ∧ isQuestionName n = false ∧ isAnswerName n = false := by
  simp only [stableName, stableCore, Bool.and_eq_true, beq_iff_eq,
    Bool.not_eq_true'] at h
  exact ⟨h.1.1.1.1.1, h.1.1.1.1.2, h.1.1.1.2, h.1.1.2, h.1.2, h.2⟩

lemma cols_map_name_id (f : String → String) :
    ∀ cols : List (String × List String), (∀ n ∈ namesOf cols, f n = n) →
      cols.map (fun c => (f c.1, c.2)) = cols := by
  intro cols
  induction cols with
  | nil => intro _; rfl
  | cons a xs ih =>
    intro h
    have ha : f a.1 = a.1 := h a.1 (by simp [namesOf])
    have hx : xs.map (fun c => (f c.1, c.2)) = xs :=
      ih (fun n hn => h n (by simp only [namesOf, List.map_cons, List.mem_cons]; exact Or.inr hn))
    simp only [List.map_cons, ha, hx, Prod.mk.eta]

lemma renameCols_names (f : String → String) (df : DataFrame) :
    colNames (renameCols f df) = (colNames df).map f := by
  simp [renameCols, colNames, namesOf, List.map_map]

lemma stripColNames_names (df : DataFrame) :
    colNames (stripColNames df) = (colNames df).map pyStrip := by
  simp [stripColNames, colNames, namesOf, List.map_map]

lemma ensureCol_mem_self (df : DataFrame) (nm : String) :
    nm ∈ colNames (ensureCol df nm) := by
  unfold ensureCol
  by_cases h : nm ∈ colNames df
  · rw [if_pos h]; exact h
  · rw [if_neg h]
    simp [colNames, namesOf]

lemma ensureCol_mem_mono (df : DataFrame) (nm n : String)
    (h : n ∈ colNames df) : n ∈ colNames (ensureCol df nm) := by
  unfold ensureCol
  by_cases hc : nm ∈ colNames df
  · rw [if_pos hc]; exact h
  · rw [if_neg hc]
    simp only [colNames, namesOf, List.map_append, List.mem_append]
    exact Or.inl h

lemma namesOf_mem_filter (p : String → Bool) (n : String) :
    ∀ cols, n ∈ namesOf cols → p n = true →
      n ∈ namesOf (cols.filter (fun c => p c.1)) := by
  intro cols
  induction cols with
  | nil => intro h _; cases h
  | cons a xs ih =>
    intro hmem hp
    simp only [namesOf, List.map_cons, List.mem_cons] at hmem
    rcases hmem with h | h
    · subst h
      rw [List.filter_cons, if_pos hp]
      simp [namesOf]
    · have htail := ih h hp
      rw [List.filter_cons]
      by_cases hpa : p a.1 = true
      · rw [if_pos hpa]
        simp only [namesOf, List.map_cons, List.mem_cons]
        exact Or.inr htail
      · rw [if_neg hpa]
        exact htail

lemma dropColsByName_mem (df : DataFrame) (names : List String) (n : String)
    (h : n ∈ colNames df) (hn : names.contains n = false) :
    n ∈ colNames (dropColsByName df names) := by
  unfold dropColsByName colNames
  refine namesOf_mem_filter (fun m => !names.contains m) n df.cols h ?_
  show (!names.contains n) = true
  rw [hn]
  rfl

lemma combinedQA_nil (cols : List (String × List String)) (i : Nat) :
    combinedQA [] [] cols i = "" := rfl

lemma foldl_id_of_step_id {α : Type} (step : α → Nat → α)
    (h : ∀ x i, step x i = x) :
    ∀ (idxs : List Nat) (x : α), idxs.foldl step x = x
  | [], _ => rfl
  | i :: is, x => by
    rw [List.foldl_cons, h x i, foldl_id_of_step_id step h is x]

lemma mergeQA_nil (df : DataFrame) : mergeQA df [] [] = df := by
  cases df with
  | mk cols nr =>
    unfold mergeQA
    simp only [DataFrame.mk.injEq, and_true]
    exact foldl_id_of_step_id _ (fun x i => if_pos (combinedQA_nil x i)) _ cols

lemma dropColsByName_nil (df : DataFrame) : dropColsByName df [] = df := by
  cases df with
  | mk cols nr =>
    unfold dropColsByName
    simp only [DataFrame.mk.injEq, and_true]
    induction cols with
    | nil => rfl
    | cons a xs ih =>
      rw [List.filter_cons, if_pos (by rfl)]
      exact congrArg (List.cons a) ih

lemma sortByKey_nil (key : String → Nat) : sortByKey key [] = [] := rfl

/-- On a table whose column names are all stable and which already has
`id` and `answers` columns, `normalize_dataframe` is the identity. -/
lemma norm_fix (df : DataFrame)
    (hst : ∀ n ∈ colNames df, stableName n = true)
    (hid : "id" ∈ colNames df) (hans : "answers" ∈ colNames df) :
    normalize_dataframe df = df := by
  have hstrip : stripColNames df = df := by
    cases df with
    | mk cols nr =>
      unfold stripColNames
      simp only [DataFrame.mk.injEq, and_true]
      exact cols_map_name_id pyStrip cols
        (fun n hn => (stableName_parts n (hst n hn)).1)
  have hensId : ensureCol df "id" = df := by
    unfold ensureCol
    rw [if_pos hid]
  have hM : renameCols applyRenameMap df = df := by
    cases df with
    | mk cols nr =>
      unfold renameCols
      simp only [DataFrame.mk.injEq, and_true]
      exact cols_map_name_id applyRenameMap cols
        (fun n hn => (stableName_parts n (hst n hn)).2.1)
  have hR : renameCols applyResumeRename df = df := by
    cases df with
    | mk cols nr =>
      unfold renameCols
      simp only [DataFrame.mk.injEq, and_true]
      exact cols_map_name_id applyResumeRename cols
        (fun n hn => (stableName_parts n (hst n hn)).2.2.1)
  have hA : renameCols applyAnswersRename df = df := by
    cases df with
    | mk cols nr =>
      unfold renameCols
      simp only [DataFrame.mk.injEq, and_true]
      exact cols_map_name_id applyAnswersRename cols
        (fun n hn => (stableName_parts n (hst n hn)).2.2.2.1)
  have hq : sortByKey extract_number ((colNames df).filter isQuestionName) = [] := by
    have h0 : (colNames df).filter isQuestionName = [] := by
      rw [List.filter_eq_nil_iff]
      intro n hn
      rw [(stableName_parts n (hst n hn)).2.2.2.2.1]
      exact Bool.false_ne_true
    rw [h0, sortByKey_nil]
  have ha : sortByKey extract_number ((colNames df).filter isAnswerName) = [] := by
    have h0 : (colNames df).filter isAnswerName = [] := by
      rw [List.filter_eq_nil_iff]
      intro n hn
      rw [(stableName_parts n (hst n hn)).2.2.2.2.2]
      exact Bool.false_ne_true
    rw [h0, sortByKey_nil]
  have hensAns : ensureCol df "answers" = df := by
    unfold ensureCol
    rw [if_pos hans]
  simp only [normalize_dataframe]
  rw [hstrip, hensId, hM, hR, hA, hq, ha, hensAns, mergeQA_nil,
    List.nil_append, dropColsByName_nil]

lemma qa_contains_false (df5 : DataFrame) (n : String)
    (hq : isQuestionName n = false) (ha : isAnswerName n = false) :
    (sortByKey extract_number ((colNames df5).filter isQuestionName) ++
      sortByKey extract_number ((colNames df5).filter isAnswerName)).contains n = false := by
  cases hc : (sortByKey extract_number ((colNames df5).filter isQuestionName) ++
      sortByKey extract_number ((colNames df5).filter isAnswerName)).contains n with
  | false => rfl
  | true =>
    exfalso
    rcases List.mem_append.mp (List.elem_iff.mp hc) with hm | hm
    · have h2 := (List.mem_filter.mp ((mem_sortByKey _ _ _).mp hm)).2
      rw [hq] at h2
      exact Bool.noConfusion h2
    · have h2 := (List.mem_filter.mp ((mem_sortByKey _ _ _).mp hm)).2
      rw [ha] at h2
      exact Bool.noConfusion h2

lemma tail_mem (df5 : DataFrame) (n : String)
    (hmem : n ∈ colNames (ensureCol df5 "answers"))
    (hq : isQuestionName n = false) (ha : isAnswerName n = false) :
    n ∈ colNames (dropColsByName (mergeQA (ensureCol df5 "answers")
        (sortByKey extract_number ((colNames df5).filter isQuestionName))
        (sortByKey extract_number ((colNames df5).filter isAnswerName)))
      (sortByKey extract_number ((colNames df5).filter isQuestionName) ++
        sortByKey extract_number ((colNames df5).filter isAnswerName))) := by
  apply dropColsByName_mem
  · show n ∈ namesOf (mergeQA (ensureCol df5 "answers") _ _).cols
    rw [mergeQA_names]
    exact hmem
  · exact qa_contains_false df5 n hq ha

lemma tail_stable (df5 : DataFrame)
    (horig : ∀ m ∈ colNames df5, ∃ s, pyStrip s = s ∧
      applyAnswersRename (applyResumeRename (applyRenameMap s)) = m) :
    ∀ n ∈ colNames (dropColsByName (mergeQA (ensureCol df5 "answers")
        (sortByKey extract_number ((colNames df5).filter isQuestionName))
        (sortByKey extract_number ((colNames df5).filter isAnswerName)))
      (sortByKey extract_number ((colNames df5).filter isQuestionName) ++
        sortByKey extract_number ((colNames df5).filter isAnswerName))),
      stableName n = true := by
  intro n hn
  obtain ⟨hm7, hkeep⟩ := namesOf_filter_mem
    (fun m => !(sortByKey extract_number ((colNames df5).filter isQuestionName) ++
      sortByKey extract_number ((colNames df5).filter isAnswerName)).contains m) n
    (mergeQA (ensureCol df5 "answers")
      (sortByKey extract_number ((colNames df5).filter isQuestionName))
      (sortByKey extract_number ((colNames df5).filter isAnswerName))).cols hn
  have hm6 : n ∈ colNames (ensureCol df5 "answers") := by
    show n ∈ namesOf (ensureCol df5 "answers").cols
    rw [← mergeQA_names (ensureCol df5 "answers")
      (sortByKey extract_number ((colNames df5).filter isQuestionName))
      (sortByKey extract_number ((colNames df5).filter isAnswerName))]
    exact hm7
  have hcontF : (sortByKey extract_number ((colNames df5).filter isQuestionName) ++
      sortByKey extract_number ((colNames df5).filter isAnswerName)).contains n = false := by
    have hkeep' : (!(sortByKey extract_number ((colNames df5).filter isQuestionName) ++
        sortByKey extract_number ((colNames df5).filter isAnswerName)).contains n) = true := hkeep
    exact Bool.not_eq_true' .. |>.mp hkeep'
  rcases ensureCol_names_mem df5 "answers" n hm6 with hm5 | hm5
  · have hq : isQuestionName n = false := by
      rcases Bool.eq_false_or_eq_true (isQuestionName n) with h | h
      · exfalso
        have hinQ : n ∈ sortByKey extract_number ((colNames df5).filter isQuestionName) :=
          (mem_sortByKey _ _ _).mpr (List.mem_filter.mpr ⟨hm5, h⟩)
        have hct : (sortByKey extract_number ((colNames df5).filter isQuestionName) ++
            sortByKey extract_number ((colNames df5).filter isAnswerName)).contains n = true :=
          List.elem_iff.mpr (List.mem_append.mpr (Or.inl hinQ))
        rw [hct] at hcontF
        exact Bool.noConfusion hcontF
      · exact h
    have ha : isAnswerName n = false := by
      rcases Bool.eq_false_or_eq_true (isAnswerName n) with h | h
      · exfalso
        have hinA : n ∈ sortByKey extract_number ((colNames df5).filter isAnswerName) :=
          (mem_sortByKey _ _ _).mpr (List.mem_filter.mpr ⟨hm5, h⟩)
        have hct : (sortByKey extract_number ((colNames df5).filter isQuestionName) ++
            sortByKey extract_number ((colNames df5).filter isAnswerName)).contains n = true :=
          List.elem_iff.mpr (List.mem_append.mpr (Or.inr hinA))
        rw [hct] at hcontF
        exact Bool.noConfusion hcontF
      · exact h
    obtain ⟨s, hs, hes⟩ := horig n hm5
    have hcore := chain_core s hs
    rw [hes] at hcore
    simp only [stableName]
    rw [hcore, hq, ha]
    rfl
  · rw [hm5]
    decide

/-- The output of `normalize_dataframe` is canonical: every column name
is stable and the `id` and `answers` columns are present. -/
lemma canonical_normalize (df : DataFrame) :
    (∀ n ∈ colNames (normalize_dataframe df), stableName n = true) ∧
    "id" ∈ colNames (normalize_dataframe df) ∧
    "answers" ∈ colNames (normalize_dataframe df) := by
  have horig : ∀ m ∈ colNames (renameCols applyAnswersRename (renameCols applyResumeRename
      (renameCols applyRenameMap (ensureCol (stripColNames df) "id")))),
      ∃ s, pyStrip s = s ∧
        applyAnswersRename (applyResumeRename (applyRenameMap s)) = m := by
    intro m hm
    rw [renameCols_names, renameCols_names, renameCols_names,
      List.map_map, List.map_map] at hm
    obtain ⟨m2, hm2, he⟩ := List.mem_map.mp hm
    have he' : applyAnswersRename (applyResumeRename (applyRenameMap m2)) = m := he
    rcases ensureCol_names_mem _ "id" m2 hm2 with h1 | h1
    · rw [stripColNames_names] at h1
      obtain ⟨m0, _, hstr⟩ := List.mem_map.mp h1
      exact ⟨m2, by rw [← hstr]; exact pyStrip_idem m0, he'⟩
    · exact ⟨m2, by rw [h1]; decide, he'⟩
  have hid5 : "id" ∈ colNames (renameCols applyAnswersRename (renameCols applyResumeRename
      (renameCols applyRenameMap (ensureCol (stripColNames df) "id")))) := by
    have h2 : "id" ∈ colNames (ensureCol (stripColNames df) "id") :=
      ensureCol_mem_self _ _
    have h3 := List.mem_map_of_mem applyRenameMap h2
    rw [show applyRenameMap "id" = "id" from by decide] at h3
    rw [← renameCols_names] at h3
    have h4 := List.mem_map_of_mem applyResumeRename h3
    rw [show applyResumeRename "id" = "id" from by decide] at h4
    rw [← renameCols_names] at h4
    have h5 := List.mem_map_of_mem applyAnswersRename h4
    rw [show applyAnswersRename "id" = "id" from by decide] at h5
    rw [← renameCols_names] at h5
    exact h5
  refine ⟨?_, ?_, ?_⟩
  · simp only [normalize_dataframe]
    exact tail_stable _ horig
  · simp only [normalize_dataframe]
    exact tail_mem _ "id" (ensureCol_mem_mono _ "answers" "id" hid5)
      (by decide) (by decide)
  · simp only [normalize_dataframe]
    exact tail_mem _ "answers" (ensureCol_mem_self _ "answers")
      (by decide) (by decide)

/-- C5: `normalize_dataframe` is idempotent — running the normalizer on
an already-normalized table returns it unchanged, so no `answers`
content is duplicated and no dropped question/answer column
reappears. -/
theorem C5_normalize_idempotent (df : DataFrame) :
    normalize_dataframe (normalize_dataframe df) = normalize_dataframe df :=
  norm_fix (normalize_dataframe df) (canonical_normalize df).1
    (canonical_normalize df).2.1 (canonical_normalize df).2.2

end Screener
